import Mathlib

/-!
ATest4HDF5: the selective transcoding walker, its chunk heuristic and the benchmark loop

A shallow embedding of the C++ sources

* `src/src/src_code.cpp`            (namespace `SrcCode`)
* `src/src/hdf_filter_bench.cpp`    (namespace `Bench`)
* `src/src_new/FilterRegistry.cpp`, `src/src_new/HDF5Parser.cpp` (namespace `New`)

Conventions of the embedding

* `std::string` is `String`; the regular expression engine sees its character list.  The
  pattern of the source only distinguishes `/` and the letters of `read_`, so matching on
  characters and matching on the bytes of the UTF-8 encoding agree.
* `hsize_t` is a `Nat` below `2^64`; every arithmetic step of the source that can wrap is
  written with an explicit `% 2^64`.
* HDF5 library calls are not part of the repository.  A dataset creation property list
  (`DSetCreatPropList`) is the record of the calls made on it: the chunk shape set by
  `setChunk` and the filter stages appended by `setShuffle`, `setDeflate`, `setFilter`,
  `H5Pset_szip`.  `H5Zfilter_avail` is an oracle `Nat → Bool`.
* Wall-clock timing is left out; `double` values are exact rationals.
* A walker is a function from the source object graph to a `Walk`: the list of things it does
  to the destination file, and whether a C++ exception left it.  Neither program has a handler
  around the walk, so an exception that leaves it ends the process (`std::terminate`).  Two
  calls that the walkers make outside every `try` are embedded with their exception:
  `gdst.openGroup(name)` after a `createGroup` that failed, and `plist.setChunk` on a shape
  that `H5Pset_chunk` refuses.  The calls on the source file (its objects are given) and the
  filter setters inside `apply` (recorded as stages) are taken to return.
-/

namespace ATest4HDF5

/-! ## The regular expression of `is_target_dataset` -/

/-- The fragment of the ECMAScript grammar used by the source's pattern
`(^|/)(read_[^/]+)(/|$)`: the two anchors, a literal character, a negated one-character
class, concatenation, alternation and the `+` quantifier.  Capture groups only group. -/
inductive Regex where
  | bol : Regex
  | eol : Regex
  | chr : Char → Regex
  | notChr : Char → Regex
  | seq : Regex → Regex → Regex
  | alt : Regex → Regex → Regex
  | plus : Regex → Regex
  deriving Repr

/-- A position inside the subject string: `true` in the first component when nothing of the
subject lies before the position (where `^` matches, `std::regex` without `multiline`), and
the rest of the subject from the position on. -/
abbrev Pos := Bool × List Char

/-- One or more repetitions of `step`, by backtracking: every position reachable after
`1, 2, ...` successful rounds.  A round that consumes nothing is not repeated.  `fuel`
bounds the number of rounds; `length + 1` rounds are always enough. -/
def Regex.plusFrom (step : Pos → List Pos) : Nat → Pos → List Pos
  | 0, _ => []
  | fuel + 1, st =>
    (step st).flatMap fun st1 =>
      st1 :: (if st1.2.length < st.2.length then Regex.plusFrom step fuel st1 else [])

/-- The end positions of all matches of the expression that start at the given position (the
positions a backtracking matcher can reach). -/
def Regex.ends : Regex → Pos → List Pos
  | .bol => fun st => if st.1 then [st] else []
  | .eol => fun st => if st.2.isEmpty then [st] else []
  | .chr c => fun st =>
    match st.2 with
    | [] => []
    | x :: t => if x = c then [(false, t)] else []
  | .notChr c => fun st =>
    match st.2 with
    | [] => []
    | x :: t => if x = c then [] else [(false, t)]
  | .seq a b => fun st => (Regex.ends a st).flatMap (Regex.ends b)
  | .alt a b => fun st => Regex.ends a st ++ Regex.ends b st
  | .plus a => fun st => Regex.plusFrom (Regex.ends a) (st.2.length + 1) st

/-- The literal `cs` as a concatenation of its characters, followed by `k`. -/
def Regex.lits (cs : List Char) (k : Regex) : Regex :=
  cs.foldr (fun c r => Regex.seq (Regex.chr c) r) k

/-- Try a match at the current position, then at every later one. -/
def regex_search_from (re : Regex) : Bool → List Char → Bool
  | b, [] => !(re.ends (b, [])).isEmpty
  | b, c :: t => !(re.ends (b, c :: t)).isEmpty || regex_search_from re false t

/-- As `std::regex_search(s, re)`: is there a match of `re` somewhere in `s`. -/
def regex_search (s : String) (re : Regex) : Bool :=
  regex_search_from re true s.data

/-- The pattern `(^|/)(read_[^/]+)(/|$)`. -/
def read_re : Regex :=
  Regex.seq (Regex.alt Regex.bol (Regex.chr '/'))
    (Regex.lits "read_".data
      (Regex.seq (Regex.plus (Regex.notChr '/')) (Regex.alt (Regex.chr '/') Regex.eol)))

namespace SrcCode

/-- The function `is_target_dataset` of `src_code.cpp` (lines 29-34). -/
def is_target_dataset (fullpath dset_name : String) : Bool :=
  if !(dset_name == "Raw" || dset_name == "Signal") then false
  else regex_search fullpath read_re

end SrcCode

namespace Bench

/-- The function `path_has_read_prefix` of `hdf_filter_bench.cpp` (lines 42-45). -/
def path_has_read_prefix (fullpath : String) : Bool :=
  regex_search fullpath read_re

/-- The function `is_target_dataset` of `hdf_filter_bench.cpp` (lines 47-51). -/
def is_target_dataset (fullpath dset_name : String) : Bool :=
  if !(dset_name == "Raw" || dset_name == "Signal") then false
  else path_has_read_prefix fullpath

end Bench

/-! ## Property lists, filter specifications and the chunk heuristic -/

/-- One stage of a filter pipeline, as recorded by the call that appends it:
`setShuffle()`, `setDeflate(level)`, `H5Pset_szip(options_mask, pixels_per_block)` and
`setFilter(id, flags, cd_nelmts, cd_values)`. -/
inductive FilterStage where
  | shuffle : FilterStage
  | deflate (level : Nat) : FilterStage
  | szip (options_mask pixels_per_block : Nat) : FilterStage
  | filter (id flags : Nat) (cd_values : List Nat) : FilterStage
  deriving DecidableEq, Repr

/-- A dataset creation property list: the chunk shape given to `setChunk` (none while
`setChunk` was not called) and the filter stages in the order they were appended.  The default
constructed list has neither. -/
structure DSetCreatPropList where
  chunk : Option (List Nat) := none
  filters : List FilterStage := []
  deriving DecidableEq, Repr

/-- What the program asks of the HDF5 library and of the file system at run time:
`H5Zfilter_avail(id)`; whether the call `H5Pset_szip` returns without error; whether
`H5Pset_chunk` accepts a chunk shape of positive extents (the library has further limits, such
as one on the size of an extent); whether `gdst.createGroup` succeeds for the group at a
destination path; whether the output file of a given name can be created; and the size in
bytes that `fs::file_size` reports for the closed output file of a given name (`0` when it
throws). -/
structure Env where
  H5Zfilter_avail : Nat → Bool
  H5Pset_szip_ok : Bool
  H5Pset_chunk_ok : List Nat → Bool
  createGroup_ok : String → Bool
  H5File_create_ok : String → Bool
  file_size : String → Nat

/-- The call `plist.setChunk(rank, dims)`, which throws when `H5Pset_chunk` fails: `none` is
the exception.  `H5Pset_chunk` refuses every shape with a zero extent (all chunk dimensions
must be positive); for a shape of positive extents the outcome is `env.H5Pset_chunk_ok`. -/
def DSetCreatPropList.setChunk (env : Env) (p : DSetCreatPropList) (chunk : List Nat) :
    Option DSetCreatPropList :=
  if chunk.all (fun d => d > 0) && env.H5Pset_chunk_ok chunk then
    some { p with chunk := some chunk }
  else none

/-- Appending one stage to the pipeline. -/
def DSetCreatPropList.addFilter (p : DSetCreatPropList) (f : FilterStage) : DSetCreatPropList :=
  { p with filters := p.filters ++ [f] }

/-- The struct `FilterSpec` (`src_code.cpp` 204-209, `hdf_filter_bench.cpp` 239-244,
`FilterRegistry.h` 14-19). -/
structure FilterSpec where
  name : String
  apply : DSetCreatPropList → DSetCreatPropList
  requires_avail : Bool
  check_id : Nat

/-- HDF5 filter identifier of deflate (`H5Zpublic.h`). -/
def H5Z_FILTER_DEFLATE : Nat := 1
/-- HDF5 filter identifier of szip (`H5Zpublic.h`). -/
def H5Z_FILTER_SZIP : Nat := 4
/-- The option mask `H5_SZIP_NN_OPTION_MASK` (`H5Zpublic.h`). -/
def H5_SZIP_NN_OPTION_MASK : Nat := 32
/-- The flag `H5Z_FLAG_MANDATORY` (`H5Zpublic.h`). -/
def H5Z_FLAG_MANDATORY : Nat := 0
/-- The macro `H5Z_FILTER_LZ4` (`src_code.cpp` 15). -/
def H5Z_FILTER_LZ4 : Nat := 32004
/-- The macro `H5Z_FILTER_ZSTD` (`src_code.cpp` 16). -/
def H5Z_FILTER_ZSTD : Nat := 32015

/-- The constant `MAX_ELEMS = 1024*1024` of the chunk heuristic. -/
def MAX_ELEMS : Nat := 1024 * 1024

/-- The value `H5S_UNLIMITED = (hsize_t)(-1)` (`H5Spublic.h`), which HDF5 reserves for "no
limit" in the maximal extents of a dataspace.  It is never a current extent of a dataset (the
library refuses it there), so the extents that `getSimpleExtentDims` delivers are below it. -/
def H5S_UNLIMITED : Nat := 2 ^ 64 - 1

/-- The loop `hsize_t prod = 1; for (auto d : chunk) prod *= (d>0?d:1);` in 64-bit unsigned
arithmetic. -/
def chunk_prod (chunk : List Nat) : Nat :=
  chunk.foldl (fun prod d => (prod * (if d > 0 then d else 1)) % 2 ^ 64) 1

/-- The loop body statement `if (c > 1) { c = (c+1)/2; }` on one `hsize_t`. -/
def halve (c : Nat) : Nat :=
  if c > 1 then ((c + 1) % 2 ^ 64) / 2 else c

/-- The loop `while (prod > MAX_ELEMS) { for (auto &c : chunk) ...; prod = ...; }`, returning
the final `chunk`.  `fuel` bounds the number of passes through the body; `halving_loop_exit`
and `halving_loop_fuel` show that 64 passes always reach the exit test. -/
def halving_loop : Nat → List Nat → List Nat
  | 0, chunk => chunk
  | fuel + 1, chunk =>
    if chunk_prod chunk > MAX_ELEMS then halving_loop fuel (chunk.map halve) else chunk

/-- The chunk computation of the walkers (`src_code.cpp` 324-335, `hdf_filter_bench.cpp`
345-357): start from `dims`, use `{1}` for rank zero, then run the halving loop. -/
def compute_chunk (dims : List Nat) : List Nat :=
  let chunk := if dims.length = 0 then [1] else dims
  halving_loop 64 chunk

/-- A slash-delimited segment of a path: one of the pieces into which the path falls when it
is split at every `/`. -/
def IsSegment (seg path : List Char) : Prop :=
  seg ∈ path.splitOn '/'

/-- A run of characters without `c` inside `path` that is bounded on each side by a `c` or by
an end of the path. -/
def IsDelimitedRun (c : Char) (seg path : List Char) : Prop :=
  c ∉ seg ∧ ∃ pre post, path = pre ++ seg ++ post ∧
    (pre = [] ∨ pre.getLast? = some c) ∧ (post = [] ∨ post.head? = some c)

/-- The wording of the specification: the path contains a slash-delimited segment consisting
of `read_` followed by at least one character. -/
def HasReadSegment (fullpath : String) : Prop :=
  ∃ rest : List Char, rest ≠ [] ∧ IsSegment ("read_".data ++ rest) fullpath.data

/-- The pattern matches at a position: after the start of the subject or a `/` comes
`read_`, then a non-empty run without `/`, then a `/` or the end of the subject. -/
def ReadMatchAt (p : Pos) : Prop :=
  ∃ s1, ((p.1 = true ∧ s1 = p.2) ∨ p.2 = '/' :: s1) ∧
    ∃ rest post, s1 = "read_".data ++ rest ++ post ∧ rest ≠ [] ∧ '/' ∉ rest ∧
      (post = [] ∨ post.head? = some '/')

/-! ## The source object graph and the walkers -/

/-- An object of the source file as a walker meets it: its name from `getObjnameByIdx`, its
kind from `getObjTypeByIdx`, the children of a group in index order and, for a dataset, the
outcome of `read_dataset_raw`: `none` when it returns false, otherwise the shape `dims_out`
(the bytes and the element type are handed on unchanged and are not represented). -/
inductive H5Obj where
  | group (name : String) (children : List H5Obj) : H5Obj
  | dataset (name : String) (raw : Option (List Nat)) : H5Obj
  | other (name : String) : H5Obj
  deriving Repr

/-- What a walker does to the destination file, in order: a group created by
`gdst.createGroup`, and a call `create_and_write_dataset(dst, path, memtid, dims, buf, plist)`
(its boolean result is only logged by the walkers). -/
inductive Event where
  | createGroup (path : String) : Event
  | write (path : String) (dims : List Nat) (plist : DSetCreatPropList) : Event
  deriving DecidableEq, Repr

/-- What a walk did to the destination file, in order, and how it ended: `thrown` is true
when an exception left the walk, and `events` is then what it had done until the throw. -/
structure Walk where
  events : List Event
  thrown : Bool
  deriving DecidableEq, Repr

/-- The path of a child: `"/" + name` under the root, `gpath + "/" + name` elsewhere. -/
def child_path (gpath name : String) : String :=
  if gpath == "/" then "/" ++ name else gpath ++ "/" ++ name

namespace SrcCode

/-- The property list built for one dataset (`src_code.cpp` 319-356); `none` when `setChunk`
throws. -/
def build_plist (env : Env) (spec : FilterSpec) (is_target : Bool) (dims : List Nat) :
    Option DSetCreatPropList :=
  let plist : DSetCreatPropList := {}
  if spec.name != "baseline_none" then
    if is_target then
      let chunk := compute_chunk dims
      match plist.setChunk env chunk with
      | none => none
      | some plist =>
        if spec.requires_avail && spec.check_id != 0 then
          if !env.H5Zfilter_avail spec.check_id then
            some plist
          else
            if spec.check_id == H5Z_FILTER_SZIP then
              if env.H5Pset_szip_ok then some (plist.addFilter (.szip H5_SZIP_NN_OPTION_MASK 16))
              else some plist
            else some (spec.apply plist)
        else some (spec.apply plist)
    else some plist
  else some plist

mutual
/-- One pass of the loop body of `recurse` (`src_code.cpp` 288-377) for the child `obj` of
the group at `gpath`.  A failed `createGroup` is swallowed by the empty `catch`; the
destination file was created empty, so there is no group of that name and the call
`gdst.openGroup(name)` after it (line 303, outside every `try`) throws.  A failed read skips
the dataset (`continue`); an exception of `setChunk` (line 336, outside every `try`) leaves
the walk before the write; both branches of the timing `if` make the same
`create_and_write_dataset` call. -/
def recurse_child (env : Env) (spec : FilterSpec) (gpath : String) : H5Obj → Walk
  | .group name children =>
    if env.createGroup_ok (child_path gpath name) then
      let below := recurse env spec (child_path gpath name) children
      { events := Event.createGroup (child_path gpath name) :: below.events,
        thrown := below.thrown }
    else { events := [], thrown := true }
  | .dataset name raw =>
    let child_src_path := child_path gpath name
    let is_target := is_target_dataset child_src_path name
    match raw with
    | none => { events := [], thrown := false }
    | some dims =>
      match build_plist env spec is_target dims with
      | none => { events := [], thrown := true }
      | some plist => { events := [Event.write child_src_path dims plist], thrown := false }
  | .other _ => { events := [], thrown := false }
/-- The lambda `recurse` of `run_one` (`src_code.cpp` 286-379) over the children of a group:
the passes in index order, up to the first one that an exception leaves. -/
def recurse (env : Env) (spec : FilterSpec) (gpath : String) : List H5Obj → Walk
  | [] => { events := [], thrown := false }
  | obj :: objs =>
    let first := recurse_child env spec gpath obj
    if first.thrown then first
    else
      let rest := recurse env spec gpath objs
      { events := first.events ++ rest.events, thrown := rest.thrown }
end

end SrcCode

namespace Bench

/-- The property list built for one dataset (`hdf_filter_bench.cpp` 336-387); `none` when
`setChunk` throws. -/
def build_plist (env : Env) (spec : FilterSpec) (is_target : Bool) (dims : List Nat) :
    Option DSetCreatPropList :=
  let plist : DSetCreatPropList := {}
  if spec.name == "baseline_none" then some plist
  else
    if is_target then
      let chunk := compute_chunk dims
      match plist.setChunk env chunk with
      | none => none
      | some plist =>
        if spec.requires_avail && spec.check_id != 0 then
          if !env.H5Zfilter_avail spec.check_id then
            some plist
          else
            if spec.check_id == H5Z_FILTER_SZIP then
              if env.H5Pset_szip_ok then some (plist.addFilter (.szip H5_SZIP_NN_OPTION_MASK 16))
              else some plist
            else some (spec.apply plist)
        else some (spec.apply plist)
    else some plist

mutual
/-- One pass of the loop body of `recurse` (`hdf_filter_bench.cpp` 304-410); `openGroup`
(line 320) and `setChunk` (line 358) are outside every `try`, as in `src_code.cpp`. -/
def recurse_child (env : Env) (spec : FilterSpec) (gpath : String) : H5Obj → Walk
  | .group name children =>
    if env.createGroup_ok (child_path gpath name) then
      let below := recurse env spec (child_path gpath name) children
      { events := Event.createGroup (child_path gpath name) :: below.events,
        thrown := below.thrown }
    else { events := [], thrown := true }
  | .dataset name raw =>
    let child_src_path := child_path gpath name
    let is_target := is_target_dataset child_src_path name
    match raw with
    | none => { events := [], thrown := false }
    | some dims =>
      match build_plist env spec is_target dims with
      | none => { events := [], thrown := true }
      | some plist => { events := [Event.write child_src_path dims plist], thrown := false }
  | .other _ => { events := [], thrown := false }
/-- The lambda `recurse` of `run_one` (`hdf_filter_bench.cpp` 302-411). -/
def recurse (env : Env) (spec : FilterSpec) (gpath : String) : List H5Obj → Walk
  | [] => { events := [], thrown := false }
  | obj :: objs =>
    let first := recurse_child env spec gpath obj
    if first.thrown then first
    else
      let rest := recurse env spec gpath objs
      { events := first.events ++ rest.events, thrown := rest.thrown }
end

end Bench

namespace New

/-- The macro `FILTER_VBZ_ID` comes from `vbz_plugin.h`, which is not part of the sources;
the value is the one named in `FilterRegistry.h` (line 18). -/
def FILTER_VBZ_ID : Nat := 32020

/-- The class `FilterRegistry` (`FilterRegistry.h` 24-45); the process-wide singleton is
passed explicitly. -/
structure FilterRegistry where
  filters : List FilterSpec := []

/-- The method `registerFilter`: `filters.push_back(spec)`. -/
def FilterRegistry.registerFilter (reg : FilterRegistry) (spec : FilterSpec) : FilterRegistry :=
  { filters := reg.filters ++ [spec] }

/-- The method `getAll`. -/
def FilterRegistry.getAll (reg : FilterRegistry) : List FilterSpec :=
  reg.filters

/-- The array `gzip_cp_levs` of `initFilters`. -/
def gzip_cp_levs : List Nat := [1, 6, 9]

/-- The array `vbz_cp_levs` of `registerVBZ`. -/
def vbz_cp_levs : List Nat := [1, 11, 22]

/-- The function `initFilters` (`FilterRegistry.cpp` 3-35).  The lambda of the gzip loop
captures nothing and names `gzip_cp_levs` and `i`, so the source as written is not
well-formed; `apply` is given here the reading "the entry of its own round". -/
def initFilters (reg : FilterRegistry) : FilterRegistry :=
  let reg := reg.registerFilter
    { name := "baseline_none", apply := fun p => p, requires_avail := false, check_id := 0 }
  let reg := (List.range 3).foldl (fun reg i => reg.registerFilter
    { name := "shuffle_gzip_lvl" ++ toString (i + 1),
      apply := fun p => (p.addFilter .shuffle).addFilter (.deflate (gzip_cp_levs.getD i 0)),
      requires_avail := false,
      check_id := H5Z_FILTER_DEFLATE }) reg
  reg.registerFilter
    { name := "szip", apply := fun p => p, requires_avail := false, check_id := H5Z_FILTER_SZIP }

/-- The function `registerVBZ` (`FilterRegistry.cpp` 38-60): the names, `requires_avail`
and `check_id` are built outside the lambda.  The lambda captures `i` only and names the
local array `vbz_cp_levs`, which it does not capture, so the source as written is not
well-formed; `apply` is given here the reading "the entry of its own round". -/
def registerVBZ (reg : FilterRegistry) : FilterRegistry :=
  (List.range 3).foldl (fun reg i => reg.registerFilter
    { name := "vbz_level_" ++ toString (vbz_cp_levs.getD i 0),
      apply := fun p =>
        p.addFilter (.filter FILTER_VBZ_ID H5Z_FLAG_MANDATORY [0, vbz_cp_levs.getD i 0, 1, 1]),
      requires_avail := true,
      check_id := FILTER_VBZ_ID }) reg

/-- The function `register_all_filters` (`FilterRegistry.cpp` 62-66). -/
def register_all_filters (reg : FilterRegistry) : FilterRegistry :=
  registerVBZ (initFilters reg)

/-- The target decision of `HDF5Parser` (`HDF5Parser.cpp` 28 and 34). -/
def is_target (name : String) : Bool :=
  if !(name == "Raw" || name == "Signal") then false else true

/-- The property list built for one dataset by `HDF5Parser` (`HDF5Parser.cpp` 42-74); `none`
when `setChunk` (line 57, outside every `try`) throws.  The walker uses a vector `chunk` that
it does not declare; as in both older walkers it is the copy of `dims`. -/
def build_plist (env : Env) (spec : FilterSpec) (is_target : Bool) (dims : List Nat) :
    Option DSetCreatPropList :=
  let plist : DSetCreatPropList := {}
  if spec.name != "baseline_none" then
    if is_target then
      let chunk := compute_chunk dims
      match plist.setChunk env chunk with
      | none => none
      | some plist =>
        if spec.requires_avail && spec.check_id != 0 then
          if !env.H5Zfilter_avail spec.check_id then
            if spec.check_id == H5Z_FILTER_SZIP then
              if env.H5Pset_szip_ok then some (plist.addFilter (.szip H5_SZIP_NN_OPTION_MASK 16))
              else some plist
            else some (spec.apply plist)
          else some plist
        else some (spec.apply plist)
    else some plist
  else some plist

mutual
/-- One pass of the loop body of `HDF5Parser` (`HDF5Parser.cpp` 7-88) for the child `obj`;
the second component is false when the pass leaves the loop through `break`.  The function
as written is not well-formed C++ (it uses `src`, `dst`, `chunk` and `compress_ms` without a
declaration, calls itself with three arguments and returns nothing); the embedding follows
its text: the recursive call is taken to hand `spec` on and its result is not looked at. -/
def HDF5Parser_child (env : Env) (spec : FilterSpec) (gpath : String) :
    H5Obj → Walk × Bool
  | .group name children =>
    if env.createGroup_ok (child_path gpath name) then
      let below := HDF5Parser env spec (child_path gpath name) children
      ({ events := Event.createGroup (child_path gpath name) :: below.events,
         thrown := below.thrown }, true)
    else ({ events := [], thrown := false }, false)
  | .dataset name raw =>
    match raw with
    | none => ({ events := [], thrown := false }, false)
    | some dims =>
      match build_plist env spec (is_target name) dims with
      | none => ({ events := [], thrown := true }, true)
      | some plist =>
        ({ events := [Event.write (child_path gpath name) dims plist], thrown := false }, true)
  | .other _ => ({ events := [], thrown := false }, true)
/-- The function `HDF5Parser` (`HDF5Parser.cpp` 5-90) over the children of a group. -/
def HDF5Parser (env : Env) (spec : FilterSpec) (gpath : String) : List H5Obj → Walk
  | [] => { events := [], thrown := false }
  | obj :: objs =>
    match HDF5Parser_child env spec gpath obj with
    | (first, true) =>
      if first.thrown then first
      else
        let rest := HDF5Parser env spec gpath objs
        { events := first.events ++ rest.events, thrown := rest.thrown }
    | (first, false) => first
end

end New

/-! ## The benchmark loop of `main`

The `double` fields are carried as exact rationals; the timing fields are left out.  `main`
calls `run_one` outside every `try`, so an exception that leaves the walk leaves `run_one` and
`main` as well and the process ends without a result: this outcome is `none`. -/

namespace SrcCode

/-- The struct `Result` (`src_code.cpp` 21-26), without `compress_ms`. -/
structure Result where
  filter_name : String
  file_mb : Nat
  ratio : ℚ
  deriving DecidableEq, Repr

/-- The spec list built by `main` (`src_code.cpp` 210-256). -/
def specs : List FilterSpec :=
  [{ name := "baseline_none", apply := fun p => p, requires_avail := false, check_id := 0 }] ++
  [1, 6, 9].map (fun lev =>
    { name := "shuffle_gzip_lvl" ++ toString lev,
      apply := fun p => (p.addFilter .shuffle).addFilter (.deflate lev),
      requires_avail := false, check_id := H5Z_FILTER_DEFLATE }) ++
  [{ name := "szip", apply := fun p => p, requires_avail := true, check_id := H5Z_FILTER_SZIP },
   { name := "lz4",
     apply := fun p => p.addFilter (.filter H5Z_FILTER_LZ4 H5Z_FLAG_MANDATORY []),
     requires_avail := true, check_id := H5Z_FILTER_LZ4 }] ++
  [1, 11, 22].map (fun lev =>
    { name := "zstd_lvl" ++ toString lev,
      apply := fun p => p.addFilter (.filter H5Z_FILTER_ZSTD H5Z_FLAG_MANDATORY [lev]),
      requires_avail := true, check_id := H5Z_FILTER_ZSTD })

/-- The lambda `run_one` (`src_code.cpp` 270-397): the row it returns, `none` when an
exception of the walk leaves it.  `uint64_t file_mb` receives the `double`
`fsize / (1024.0 * 1024.0)`, which the conversion truncates (exact for sizes below `2^53`). -/
def run_one (env : Env) (src : List H5Obj) (spec : FilterSpec) : Option Result :=
  let fname := spec.name ++ ".h5"
  if !env.H5File_create_ok fname then
    some { filter_name := spec.name, file_mb := 0, ratio := 0 }
  else
    if (recurse env spec "/" src).thrown then none
    else
      let fsize := env.file_size fname
      some { filter_name := spec.name, file_mb := fsize / (1024 * 1024), ratio := 0 }

/-- The loop `for (size_t i = 1; i < specs.size(); ++i)` of `main` (`src_code.cpp` 412-433)
over the specs after the first: the rows pushed to `results`, `none` when an exception leaves
one of the runs. -/
def bench_loop (env : Env) (src : List H5Obj) (baseline_res : Result) :
    List FilterSpec → Option (List Result)
  | [] => some []
  | spec :: others =>
    if spec.requires_avail && spec.check_id != 0 && !env.H5Zfilter_avail spec.check_id then
      bench_loop env src baseline_res others
    else
      match run_one env src spec with
      | none => none
      | some r =>
        let r := { r with ratio :=
          if baseline_res.file_mb > 0 && r.file_mb > 0
            then (r.file_mb : ℚ) / (baseline_res.file_mb : ℚ) else 0 }
        match bench_loop env src baseline_res others with
        | none => none
        | some rows => some (r :: rows)

/-- The benchmark pass of `main` (`src_code.cpp` 399-433) for `specs[0] = baseline_spec` and
the remaining specs: the exit code `4`, or the vector `results`; `none` when an exception
leaves one of the runs and ends the process. -/
def benchmark (env : Env) (src : List H5Obj) (baseline_spec : FilterSpec)
    (others : List FilterSpec) : Option (Except Nat (List Result)) :=
  match run_one env src baseline_spec with
  | none => none
  | some baseline_res =>
    if baseline_res.file_mb == 0 then some (Except.error 4)
    else
      match bench_loop env src baseline_res others with
      | none => none
      | some rows => some (Except.ok (baseline_res :: rows))

end SrcCode

namespace Bench

/-- The struct `Result` (`hdf_filter_bench.cpp` 25-32), without the two timing fields. -/
structure Result where
  filter_name : String
  file_bytes : Nat
  ratio : ℚ
  reduction_pct : ℚ
  deriving DecidableEq, Repr

/-- The spec list built by `main` (`hdf_filter_bench.cpp` 245-266). -/
def specs : List FilterSpec :=
  [{ name := "baseline_none", apply := fun p => p, requires_avail := false, check_id := 0 },
   { name := "shuffle_gzip_lvl1",
     apply := fun p => (p.addFilter .shuffle).addFilter (.deflate 1),
     requires_avail := false, check_id := H5Z_FILTER_DEFLATE },
   { name := "shuffle_gzip_lvl9",
     apply := fun p => (p.addFilter .shuffle).addFilter (.deflate 9),
     requires_avail := false, check_id := H5Z_FILTER_DEFLATE },
   { name := "shuffle_gzip_lvl6",
     apply := fun p => (p.addFilter .shuffle).addFilter (.deflate 6),
     requires_avail := false, check_id := H5Z_FILTER_DEFLATE },
   { name := "szip", apply := fun p => p, requires_avail := true, check_id := H5Z_FILTER_SZIP }]

/-- The lambda `run_one` (`hdf_filter_bench.cpp` 285-483): the row it returns, `none` when
an exception of the walk leaves it (the read-back pass only measures time and is inside a
`try`).  The initialiser of the returned row (line 482) names a variable `compress_ms` that
the lambda does not declare (the comment above it sets the value to 0); only the timing
field, which is left out here, depends on it. -/
def run_one (env : Env) (src : List H5Obj) (spec : FilterSpec) : Option Result :=
  let fname := spec.name ++ ".h5"
  if !env.H5File_create_ok fname then
    some { filter_name := spec.name, file_bytes := 0, ratio := 0, reduction_pct := 0 }
  else
    if (recurse env spec "/" src).thrown then none
    else
      let fsize := env.file_size fname
      some { filter_name := spec.name, file_bytes := fsize, ratio := 0, reduction_pct := 0 }

/-- The loop `for (size_t i = 1; i < specs.size(); ++i)` of `main`
(`hdf_filter_bench.cpp` 498-522) over the specs after the first: the rows pushed to
`results`, `none` when an exception leaves one of the runs. -/
def bench_loop (env : Env) (src : List H5Obj) (baseline_res : Result) :
    List FilterSpec → Option (List Result)
  | [] => some []
  | spec :: others =>
    if spec.requires_avail && spec.check_id != 0 && !env.H5Zfilter_avail spec.check_id then
      bench_loop env src baseline_res others
    else
      match run_one env src spec with
      | none => none
      | some r =>
        let r :=
          if baseline_res.file_bytes > 0 && r.file_bytes > 0 then
            { r with
              ratio := (r.file_bytes : ℚ) / (baseline_res.file_bytes : ℚ),
              reduction_pct := 100 * (1 - (r.file_bytes : ℚ) / (baseline_res.file_bytes : ℚ)) }
          else { r with ratio := 0, reduction_pct := 0 }
        match bench_loop env src baseline_res others with
        | none => none
        | some rows => some (r :: rows)

/-- The benchmark pass of `main` (`hdf_filter_bench.cpp` 485-522) for
`specs[0] = baseline_spec` and the remaining specs: the exit code `4`, or the vector
`results`; `none` when an exception leaves one of the runs and ends the process. -/
def benchmark (env : Env) (src : List H5Obj) (baseline_spec : FilterSpec)
    (others : List FilterSpec) : Option (Except Nat (List Result)) :=
  match run_one env src baseline_spec with
  | none => none
  | some baseline_res =>
    if baseline_res.file_bytes == 0 then some (Except.error 4)
    else
      match bench_loop env src baseline_res others with
      | none => none
      | some rows => some (Except.ok (baseline_res :: rows))

end Bench

/-! ## The function `create_and_write_dataset` -/

/-- A call on the destination file that went through: `dst.openGroup(path)`,
`dst.createGroup(path)`, `dst.createDataSet(path, ...)`. -/
inductive FileOp where
  | openGroup (path : String) : FileOp
  | createGroup (path : String) : FileOp
  | createDataSet (path : String) : FileOp
  deriving DecidableEq, Repr

/-- The index of the first `c` in a character sequence. -/
def find_char (c : Char) : List Char → Option Nat
  | [] => none
  | x :: t => if x = c then some 0 else (find_char c t).map (· + 1)

/-- The call `s.find(c, pos)`: the index of the first `c` at or after `pos`; `none` is
`std::string::npos`. -/
def str_find (s : List Char) (c : Char) (pos : Nat) : Option Nat :=
  (find_char c (s.drop pos)).map (· + pos)

/-- The call `s.substr(pos, n)`. -/
def substr (s : List Char) (pos n : Nat) : List Char :=
  (s.drop pos).take n

/-- The loop `while (true)` of `create_and_write_dataset` (`src_code.cpp` 123-137,
`HDF5Business.cpp` 101-116) from the state `pos`, `cur`, with `dst` the paths of the groups
that exist in the destination file.  It returns the calls that went through and whether the
loop was left through `break`; it is left through an exception (second component false)
when `openGroup` throws and `createGroup` throws as well.  `fuel` bounds the number of passes;
`none` means the bound was reached. -/
def prefix_loop (env : Env) :
    Nat → List String → List Char → Nat → List Char → Option (List FileOp × Bool)
  | 0, _, _, _, _ => none
  | fuel + 1, dst, p, pos, cur =>
    match str_find p '/' pos with
    | none => some ([], true)
    | some slash =>
      let token := substr p pos (slash - pos)
      let cur := cur ++ '/' :: token
      if String.mk cur ∈ dst then
        (prefix_loop env fuel dst p (slash + 1) cur).map fun r =>
          (FileOp.openGroup (String.mk cur) :: r.1, r.2)
      else if env.createGroup_ok (String.mk cur) then
        (prefix_loop env fuel (String.mk cur :: dst) p (slash + 1) cur).map fun r =>
          (FileOp.createGroup (String.mk cur) :: r.1, r.2)
      else some ([], false)

/-- The function `create_and_write_dataset` (`src_code.cpp` 114-147, `HDF5Business.cpp`
92-126) up to the call `dst.createDataSet(path, ...)`: the calls on the destination file that
went through, the last one being `createDataSet` when the prefix loop was left through
`break`.  An empty `path` is taken to have no leading `/`. -/
def create_and_write_dataset (env : Env) (dst : List String) (path : String) :
    Option (List FileOp) :=
  let p := match path.data with
    | '/' :: t => t
    | l => l
  (prefix_loop env (p.length + 1) dst p 0 []).map fun r =>
    if r.2 then r.1 ++ [FileOp.createDataSet path] else r.1

/-- The absolute path `/s1/s2/.../sn` of the segments `s1, ..., sn`. -/
def abs_path (segs : List (List Char)) : List Char :=
  segs.flatMap fun seg => '/' :: seg

/-- The paths `/s1`, `/s1/s2`, ..., `/s1/.../s(n-1)` of the proper ancestors of
`/s1/.../sn`, outermost first. -/
def ancestor_paths (segs : List (List Char)) : List String :=
  (List.range (segs.length - 1)).map fun k => String.mk (abs_path (segs.take (k + 1)))

/-- The values that `cur` takes in the prefix loop when the rest of the path from `pos` on is
`s/t1/.../tm`: one for each segment that is followed by a `/`. -/
def cur_values (cur s : List Char) : List (List Char) → List String
  | [] => []
  | t :: rest => String.mk (cur ++ '/' :: s) :: cur_values (cur ++ '/' :: s) t rest

/-! ## The function `read_dataset_raw` -/

/-- What the HDF5 library reports for a dataset that `read_dataset_raw` has opened: the
extents from `getSimpleExtentDims`, the size from `H5Tget_size(native_tid)`, and whether
`H5Dread` returns without error. -/
structure DataSetInfo where
  dims : List Nat
  type_size : Nat
  H5Dread_ok : Bool

/-- The function `read_dataset_raw` (`HDF5Business.cpp` 59-89, `src_code.cpp` 80-111,
`hdf_filter_bench.cpp` 105-139): `none` when it returns false (`ds = none`: `openDataSet`
throws), otherwise the length of `outbuf` and `dims_out`.  The element count `total` is an
`hsize_t` and the byte count a `size_t`, both of 64 bits. -/
def read_dataset_raw (ds : Option DataSetInfo) : Option (Nat × List Nat) :=
  match ds with
  | none => none
  | some info =>
    let dims_out := info.dims
    let total := dims_out.foldl (fun total d => (total * d) % 2 ^ 64) 1
    let outbuf_size := ((total % 2 ^ 64) * info.type_size) % 2 ^ 64
    if info.H5Dread_ok then some (outbuf_size, dims_out) else none

/-! ## The function `copy_attributes` -/

/-- An attribute of a destination object: its name, its datatype (an identifier of the type
descriptor), its dataspace (the extents) and its value bytes, `none` while nothing was
written into it. -/
structure Attr where
  name : String
  atype : Nat
  aspace : List Nat
  value : Option (List Nat)
  deriving DecidableEq, Repr

/-- An attribute of the source object as `copy_attributes` meets it: what `H5Aget_name`,
`H5Aget_type`, `H5Aget_space` and `H5Aread` deliver, and whether `H5Aopen_by_idx` and
`H5Aread` succeed for it. -/
structure SrcAttr where
  name : String
  atype : Nat
  aspace : List Nat
  value : List Nat
  H5Aopen_ok : Bool
  H5Aread_ok : Bool

/-- The calls of `copy_attributes` on the destination, by attribute name: whether
`H5Oopen(dst_loc, name)` succeeds in that pass, whether `H5Acreate2` succeeds, whether
`H5Awrite` succeeds. -/
structure AttrEnv where
  H5Oopen_dst_ok : String → Bool
  H5Acreate2_ok : String → Bool
  H5Awrite_ok : String → Bool

/-- One pass of the loop of `copy_attributes` (`HDF5Business.cpp` 22-55) on the attributes
`dst` of the destination object. -/
def copy_attribute (env : AttrEnv) (dst : List Attr) (a : SrcAttr) : List Attr :=
  if !a.H5Aopen_ok then dst
  else if !env.H5Oopen_dst_ok a.name then dst
  else if env.H5Acreate2_ok a.name then
    dst ++ [{ name := a.name, atype := a.atype, aspace := a.aspace,
              value := if a.H5Aread_ok && env.H5Awrite_ok a.name then some a.value else none }]
  else dst

/-- The function `copy_attributes` (`HDF5Business.cpp` 15-57, `src_code.cpp` 37-77,
`hdf_filter_bench.cpp` 54-101): the attributes of the destination object afterwards.
`src = none` when `H5Oopen` or `H5Oget_info` fails on the source object; otherwise the
attributes in the order of `H5Aopen_by_idx`. -/
def copy_attributes (env : AttrEnv) (src : Option (List SrcAttr)) (dst : List Attr) :
    List Attr :=
  match src with
  | none => dst
  | some attrs => attrs.foldl (copy_attribute env) dst

/-- The attribute of the destination that is the full copy of a source attribute. -/
def SrcAttr.copied (a : SrcAttr) : Attr :=
  { name := a.name, atype := a.atype, aspace := a.aspace, value := some a.value }

/-- Every call that `copy_attributes` makes for the attribute succeeds. -/
def SrcAttr.all_ok (env : AttrEnv) (a : SrcAttr) : Bool :=
  a.H5Aopen_ok && a.H5Aread_ok && env.H5Oopen_dst_ok a.name && env.H5Acreate2_ok a.name &&
    env.H5Awrite_ok a.name

/-! ## The output file of `run_one` -/

/-- The output directory: the content of each file by name, `none` where there is no file.
The content of an HDF5 output file is the record of what was written into it. -/
abbrev FileSystem := String → Option (List Event)

/-- The call `fs::remove(name)`. -/
def FileSystem.remove (fs : FileSystem) (name : String) : FileSystem :=
  fun n => if n = name then none else fs n

/-- The call `H5File(name, H5F_ACC_TRUNC)` when it succeeds: a file that is not there is
created empty, a file that is there is truncated, that is, loses what it held. -/
def FileSystem.H5File_trunc (fs : FileSystem) (name : String) : FileSystem :=
  fun n => if n = name then some [] else fs n

/-- What a walk does through the handle of the open file `name`: its writes are added to
what the file holds. -/
def FileSystem.add (fs : FileSystem) (name : String) (events : List Event) : FileSystem :=
  fun n => if n = name then (fs n).map (fun content => content ++ events) else fs n

namespace SrcCode

/-- The lambda `run_one` (`src_code.cpp` 270-397) on an output directory in the state `fs`:
the row it returns and the state it leaves, `none` when an exception of the walk leaves it.
`size_of` is the size in bytes of a closed HDF5 file with the given content.  A stale file
is removed (line 274), the file is opened with `H5F_ACC_TRUNC` (line 277), the walk adds to
what the open file holds, and `fs::file_size` measures the result (`0` when there is no
file). -/
def run_one_fs (env : Env) (size_of : List Event → Nat) (src : List H5Obj) (spec : FilterSpec)
    (fs : FileSystem) : Option (Result × FileSystem) :=
  let fname := spec.name ++ ".h5"
  let fs := if (fs fname).isSome then fs.remove fname else fs
  if !env.H5File_create_ok fname then
    some ({ filter_name := spec.name, file_mb := 0, ratio := 0 }, fs)
  else
    let fs := fs.H5File_trunc fname
    let walk := recurse env spec "/" src
    let fs := fs.add fname walk.events
    if walk.thrown then none
    else
      let fsize := match fs fname with
        | some content => size_of content
        | none => 0
      some ({ filter_name := spec.name, file_mb := fsize / (1024 * 1024), ratio := 0 }, fs)

end SrcCode

/-! ## Auxiliary notions for the statements -/

/-- The product that the `prod` loop would compute without wrap-around: the unbounded
product of the extents, a zero extent counted as `1`. -/
def clamped_prod (chunk : List Nat) : Nat :=
  (chunk.map (fun d => if d > 0 then d else 1)).prod

/-- A run-time environment in which no filter is available; every other call succeeds
(`H5Pset_chunk` on every shape of positive extents) and every output file has 4 MiB. -/
def env_unavailable : Env :=
  { H5Zfilter_avail := fun _ => false, H5Pset_szip_ok := true,
    H5Pset_chunk_ok := fun _ => true, createGroup_ok := fun _ => true,
    H5File_create_ok := fun _ => true, file_size := fun _ => 4194304 }

/-- A run-time environment in which every filter is available; every other call succeeds
(`H5Pset_chunk` on every shape of positive extents) and every output file has 4 MiB. -/
def env_available : Env :=
  { H5Zfilter_avail := fun _ => true, H5Pset_szip_ok := true,
    H5Pset_chunk_ok := fun _ => true, createGroup_ok := fun _ => true,
    H5File_create_ok := fun _ => true, file_size := fun _ => 4194304 }

/-- The spec `shuffle_gzip_lvl1` as all three programs register it. -/
def sample_gzip : FilterSpec :=
  { name := "shuffle_gzip_lvl1",
    apply := fun p => (p.addFilter .shuffle).addFilter (.deflate 1),
    requires_avail := false, check_id := H5Z_FILTER_DEFLATE }

/-- The spec `lz4` of `src_code.cpp`, which asks for an availability check. -/
def sample_lz4 : FilterSpec :=
  { name := "lz4",
    apply := fun p => p.addFilter (.filter H5Z_FILTER_LZ4 H5Z_FLAG_MANDATORY []),
    requires_avail := true, check_id := H5Z_FILTER_LZ4 }

/-- The spec `baseline_none` as all three programs register it. -/
def sample_baseline : FilterSpec :=
  { name := "baseline_none", apply := fun p => p, requires_avail := false, check_id := 0 }

/-- A run-time environment in which every filter is available and every call succeeds; the
baseline output has 4 MiB, the output of `shuffle_gzip_lvl1` has 1.5 MiB and every other
output file is empty. -/
def env_sizes : Env :=
  { H5Zfilter_avail := fun _ => true, H5Pset_szip_ok := true,
    H5Pset_chunk_ok := fun _ => true, createGroup_ok := fun _ => true,
    H5File_create_ok := fun _ => true,
    file_size := fun fname =>
      if fname == "baseline_none.h5" then 4194304
      else if fname == "shuffle_gzip_lvl1.h5" then 1572864 else 0 }

/-- A run-time environment in which every filter is available, every call succeeds and every
output file has 4096 bytes. -/
def env_small : Env :=
  { H5Zfilter_avail := fun _ => true, H5Pset_szip_ok := true,
    H5Pset_chunk_ok := fun _ => true, createGroup_ok := fun _ => true,
    H5File_create_ok := fun _ => true, file_size := fun _ => 4096 }

/-- The kind of a node of an object graph. -/
inductive Kind where
  | group : Kind
  | dataset : Kind
  | other : Kind
  deriving DecidableEq, Repr

mutual
/-- The (absolute path, kind) pairs of a source object met in the group at `gpath`, and of
everything below it. -/
def src_nodes_child (gpath : String) : H5Obj → List (String × Kind)
  | .group name children =>
    (child_path gpath name, Kind.group) :: src_nodes (child_path gpath name) children
  | .dataset name _ => [(child_path gpath name, Kind.dataset)]
  | .other name => [(child_path gpath name, Kind.other)]
/-- The (absolute path, kind) pairs of the objects below the group at `gpath`. -/
def src_nodes (gpath : String) : List H5Obj → List (String × Kind)
  | [] => []
  | obj :: objs => src_nodes_child gpath obj ++ src_nodes gpath objs
end

/-- The (absolute path, kind) pairs that a walk has put into the destination file, when every
`create_and_write_dataset` call it made has succeeded. -/
def dst_nodes (events : List Event) : List (String × Kind) :=
  events.map fun e =>
    match e with
    | .createGroup path => (path, Kind.group)
    | .write path _ _ => (path, Kind.dataset)

mutual
/-- The object is a group or a dataset, every dataset in it can be read, and so below it. -/
def H5Obj.readable : H5Obj → Bool
  | .group _ children => all_readable children
  | .dataset _ raw => raw.isSome
  | .other _ => false
/-- The objects are groups and datasets whose reads all succeed. -/
def all_readable : List H5Obj → Bool
  | [] => true
  | obj :: objs => obj.readable && all_readable objs
end

/-- A run-time environment in which the destination group `/a` cannot be created; every
filter is available, every other call succeeds and every output file has 4 MiB. -/
def env_group_fails : Env :=
  { H5Zfilter_avail := fun _ => true, H5Pset_szip_ok := true,
    H5Pset_chunk_ok := fun _ => true,
    createGroup_ok := fun path => path != "/a",
    H5File_create_ok := fun _ => true, file_size := fun _ => 4194304 }

/-- The quotient `d / 2^k` rounded up. -/
def ceil_div_pow (k d : Nat) : Nat :=
  (d + 2 ^ k - 1) / 2 ^ k

/-- The attribute `a`, a scalar 32-bit integer (type 1) with the value 5. -/
def sample_attr_a : SrcAttr :=
  { name := "a", atype := 1, aspace := [], value := [5, 0, 0, 0],
    H5Aopen_ok := true, H5Aread_ok := true }

/-- The attribute `b`, a scalar string of four characters (type 2) with the value `text`. -/
def sample_attr_b : SrcAttr :=
  { name := "b", atype := 2, aspace := [], value := [116, 101, 120, 116],
    H5Aopen_ok := true, H5Aread_ok := true }

/-- A destination on which every attribute call succeeds. -/
def attr_env_ok : AttrEnv :=
  { H5Oopen_dst_ok := fun _ => true, H5Acreate2_ok := fun _ => true,
    H5Awrite_ok := fun _ => true }

theorem plusFrom_notChr_mem (c : Char) (fuel : Nat) (b : Bool) (s : List Char)
    (hf : s.length < fuel) (st : Pos) :
    st ∈ Regex.plusFrom (Regex.ends (.notChr c)) fuel (b, s) ↔
      st.1 = false ∧ ∃ rest, rest ≠ [] ∧ c ∉ rest ∧ s = rest ++ st.2 := by
  induction fuel generalizing b s with
  | zero => omega
  | succ n ih =>
    cases s with
    | nil =>
      simp only [Regex.plusFrom, Regex.ends, List.flatMap_nil, List.not_mem_nil, false_iff]
      rintro ⟨-, rest, hne, -, h⟩
      cases rest with
      | nil => exact hne rfl
      | cons y r => simp at h
    | cons x t =>
      by_cases hx : x = c
      · subst hx
        simp only [Regex.plusFrom, Regex.ends, if_true, List.flatMap_nil, List.not_mem_nil,
          false_iff]
        rintro ⟨-, rest, hne, hc, h⟩
        cases rest with
        | nil => exact hne rfl
        | cons y r =>
          simp only [List.cons_append, List.cons.injEq] at h
          exact hc (by simp [h.1])
      · have hlen : t.length < n := by simpa using hf
        have hstep : Regex.ends (.notChr c) (b, x :: t) = [(false, t)] := by
          simp [Regex.ends, hx]
        rw [Regex.plusFrom, hstep]
        simp only [List.flatMap_cons, List.flatMap_nil, List.append_nil, List.length_cons,
          Nat.lt_succ_self, if_true, List.mem_cons, ih false t hlen]
        constructor
        · rintro (h | ⟨h1, rest, hne, hc, h⟩)
          · subst h
            exact ⟨rfl, [x], by simp, by simpa using Ne.symm hx, rfl⟩
          · refine ⟨h1, x :: rest, by simp, ?_, by simp [h]⟩
            simp only [List.mem_cons, not_or]
            exact ⟨Ne.symm hx, hc⟩
        · rintro ⟨h1, rest, hne, hc, h⟩
          cases rest with
          | nil => exact absurd rfl hne
          | cons y r =>
            simp only [List.cons_append, List.cons.injEq] at h
            simp only [List.mem_cons, not_or] at hc
            by_cases hr : r = []
            · left
              subst hr
              obtain ⟨b1, u⟩ := st
              simp only [List.nil_append] at h
              simp only at h1
              simp [h1, h.2]
            · right
              exact ⟨h1, r, hr, hc.2, h.2⟩

theorem mem_ends_bol (p st : Pos) : st ∈ Regex.ends .bol p ↔ p.1 = true ∧ st = p := by
  cases h : p.1 <;> simp [Regex.ends, h]

theorem mem_ends_eol (p st : Pos) : st ∈ Regex.ends .eol p ↔ p.2 = [] ∧ st = p := by
  cases h : p.2 <;> simp [Regex.ends, h]

theorem mem_ends_chr (c : Char) (p st : Pos) :
    st ∈ Regex.ends (.chr c) p ↔ st.1 = false ∧ p.2 = c :: st.2 := by
  obtain ⟨b, s⟩ := p
  obtain ⟨b1, u⟩ := st
  cases s with
  | nil => simp [Regex.ends]
  | cons x t =>
    by_cases hx : x = c
    · simp [Regex.ends, hx]
      tauto
    · simp [Regex.ends, hx]

theorem mem_ends_seq (a b : Regex) (p st : Pos) :
    st ∈ Regex.ends (.seq a b) p ↔ ∃ m, m ∈ Regex.ends a p ∧ st ∈ Regex.ends b m := by
  simp [Regex.ends, List.mem_flatMap]

theorem mem_ends_alt (a b : Regex) (p st : Pos) :
    st ∈ Regex.ends (.alt a b) p ↔ st ∈ Regex.ends a p ∨ st ∈ Regex.ends b p := by
  simp [Regex.ends]

theorem mem_ends_plus_notChr (c : Char) (p st : Pos) :
    st ∈ Regex.ends (.plus (.notChr c)) p ↔
      st.1 = false ∧ ∃ rest, rest ≠ [] ∧ c ∉ rest ∧ p.2 = rest ++ st.2 := by
  obtain ⟨b, s⟩ := p
  exact plusFrom_notChr_mem c (s.length + 1) b s (Nat.lt_succ_self _) st

theorem read_re_eq : read_re =
    .seq (.alt .bol (.chr '/')) (.seq (.chr 'r') (.seq (.chr 'e') (.seq (.chr 'a')
      (.seq (.chr 'd') (.seq (.chr '_')
        (.seq (.plus (.notChr '/')) (.alt (.chr '/') .eol))))))) := rfl

theorem read_data : "read_".data = ['r', 'e', 'a', 'd', '_'] := rfl

theorem ends_read_re (p : Pos) : (∃ st, st ∈ Regex.ends read_re p) ↔ ReadMatchAt p := by
  obtain ⟨b, s⟩ := p
  simp only [read_re_eq, ReadMatchAt, read_data, mem_ends_seq, mem_ends_alt, mem_ends_bol,
    mem_ends_eol, mem_ends_chr, mem_ends_plus_notChr]
  constructor
  · rintro ⟨st, m0, h0, m1, h1, m2, h2, m3, h3, m4, h4, m5, h5, m6, h6, h7⟩
    obtain ⟨-, rest, hne, hc, hrest⟩ := h6
    refine ⟨m0.2, ?_, rest, m6.2, ?_, hne, hc, ?_⟩
    · rcases h0 with ⟨hb, rfl⟩ | ⟨-, h0⟩
      · exact Or.inl ⟨hb, rfl⟩
      · exact Or.inr h0
    · rw [h1.2, h2.2, h3.2, h4.2, h5.2, hrest]
      simp
    · rcases h7 with ⟨-, h7⟩ | ⟨h7, -⟩
      · exact Or.inr (by simp [h7])
      · exact Or.inl h7
  · rintro ⟨s1, hs1, rest, post, hs, hne, hc, hpost⟩
    subst hs
    have hchain : ∀ m0 : Pos, m0.2 = ['r', 'e', 'a', 'd', '_'] ++ rest ++ post →
        ∃ st : Pos, ∃ m1 : Pos, (m1.1 = false ∧ m0.2 = 'r' :: m1.2) ∧ ∃ m2 : Pos,
          (m2.1 = false ∧ m1.2 = 'e' :: m2.2) ∧ ∃ m3 : Pos,
          (m3.1 = false ∧ m2.2 = 'a' :: m3.2) ∧ ∃ m4 : Pos,
          (m4.1 = false ∧ m3.2 = 'd' :: m4.2) ∧ ∃ m5 : Pos,
          (m5.1 = false ∧ m4.2 = '_' :: m5.2) ∧ ∃ m6 : Pos,
          (m6.1 = false ∧ ∃ r, r ≠ [] ∧ '/' ∉ r ∧ m5.2 = r ++ m6.2) ∧
            (st.1 = false ∧ m6.2 = '/' :: st.2 ∨ m6.2 = [] ∧ st = m6) := by
      intro m0 hm0
      have hmid : ∀ st : Pos,
          (st.1 = false ∧ post = '/' :: st.2 ∨ post = [] ∧ st = (false, post)) →
          ∃ m1 : Pos, (m1.1 = false ∧ m0.2 = 'r' :: m1.2) ∧ ∃ m2 : Pos,
          (m2.1 = false ∧ m1.2 = 'e' :: m2.2) ∧ ∃ m3 : Pos,
          (m3.1 = false ∧ m2.2 = 'a' :: m3.2) ∧ ∃ m4 : Pos,
          (m4.1 = false ∧ m3.2 = 'd' :: m4.2) ∧ ∃ m5 : Pos,
          (m5.1 = false ∧ m4.2 = '_' :: m5.2) ∧ ∃ m6 : Pos,
          (m6.1 = false ∧ ∃ r, r ≠ [] ∧ '/' ∉ r ∧ m5.2 = r ++ m6.2) ∧
            (st.1 = false ∧ m6.2 = '/' :: st.2 ∨ m6.2 = [] ∧ st = m6) := by
        intro st hst
        exact ⟨(false, ['e', 'a', 'd', '_'] ++ rest ++ post), ⟨rfl, by simp [hm0]⟩,
          (false, ['a', 'd', '_'] ++ rest ++ post), ⟨rfl, rfl⟩,
          (false, ['d', '_'] ++ rest ++ post), ⟨rfl, rfl⟩,
          (false, ['_'] ++ rest ++ post), ⟨rfl, rfl⟩,
          (false, rest ++ post), ⟨rfl, rfl⟩,
          (false, post), ⟨rfl, rest, hne, hc, rfl⟩, hst⟩
      rcases hpost with hp | hp
      · exact ⟨(false, post), hmid _ (Or.inr ⟨hp, rfl⟩)⟩
      · cases post with
        | nil => simp at hp
        | cons y q =>
          simp only [List.head?_cons, Option.some.injEq] at hp
          subst hp
          exact ⟨(false, q), hmid _ (Or.inl ⟨rfl, rfl⟩)⟩
    rcases hs1 with ⟨hb, rfl⟩ | hs1
    · obtain ⟨st, h⟩ := hchain (b, _) rfl
      exact ⟨st, (b, _), Or.inl ⟨hb, rfl⟩, h⟩
    · obtain ⟨st, h⟩ := hchain (false, _) rfl
      exact ⟨st, (false, _), Or.inr ⟨rfl, hs1⟩, h⟩

theorem regex_search_from_iff (re : Regex) (b : Bool) (s : List Char) :
    regex_search_from re b s = true ↔
      ∃ pre t, s = pre ++ t ∧ ∃ st, st ∈ Regex.ends re (b && pre.isEmpty, t) := by
  induction s generalizing b with
  | nil =>
    simp only [regex_search_from, Bool.not_eq_true', List.isEmpty_eq_false]
    constructor
    · intro h
      obtain ⟨st, hst⟩ := List.exists_mem_of_ne_nil _ h
      exact ⟨[], [], rfl, st, by simpa using hst⟩
    · rintro ⟨pre, t, h, st, hst⟩
      have h1 : pre = [] ∧ t = [] := by simpa using h.symm
      obtain ⟨rfl, rfl⟩ := h1
      exact List.ne_nil_of_mem (by simpa using hst)
  | cons c t ih =>
    simp only [regex_search_from, Bool.or_eq_true, Bool.not_eq_true', List.isEmpty_eq_false, ih]
    constructor
    · rintro (h | ⟨pre, u, h, st, hst⟩)
      · obtain ⟨st, hst⟩ := List.exists_mem_of_ne_nil _ h
        exact ⟨[], c :: t, rfl, st, by simpa using hst⟩
      · exact ⟨c :: pre, u, by simp [h], st, by simpa using hst⟩
    · rintro ⟨pre, u, h, st, hst⟩
      cases pre with
      | nil =>
        left
        simp only [List.nil_append] at h
        subst h
        exact List.ne_nil_of_mem (by simpa using hst)
      | cons x pre =>
        right
        simp only [List.cons_append, List.cons.injEq] at h
        exact ⟨pre, u, h.2, st, by simpa using hst⟩

theorem first_sep_unique (c : Char) (a b x y : List Char) (ha : c ∉ a) (hb : c ∉ b)
    (h : a ++ c :: x = b ++ c :: y) : a = b ∧ x = y := by
  induction a generalizing b with
  | nil =>
    cases b with
    | nil => simpa using h
    | cons z b =>
      simp only [List.nil_append, List.cons_append, List.cons.injEq] at h
      exact absurd (by simp [h.1]) hb
  | cons w a ih =>
    cases b with
    | nil =>
      simp only [List.nil_append, List.cons_append, List.cons.injEq] at h
      exact absurd (by simp [h.1]) ha
    | cons z b =>
      simp only [List.cons_append, List.cons.injEq] at h
      simp only [List.mem_cons, not_or] at ha hb
      obtain ⟨h1, h2⟩ := ih b ha.2 hb.2 h.2
      exact ⟨by rw [h.1, h1], h2⟩

theorem splitOn_of_not_mem (c : Char) (xs : List Char) (h : c ∉ xs) : xs.splitOn c = [xs] := by
  apply List.splitOnP_eq_single
  intro x hx hxc
  have : x = c := by simpa using hxc
  exact h (this ▸ hx)

theorem splitOn_first (c : Char) (h q : List Char) (hc : c ∉ h) :
    (h ++ c :: q).splitOn c = h :: q.splitOn c := by
  apply List.splitOnP_first
  · intro x hx hxc
    have : x = c := by simpa using hxc
    exact hc (this ▸ hx)
  · simp

theorem mem_splitOn_iff_aux (c : Char) (n : Nat) :
    ∀ xs : List Char, xs.length ≤ n → ∀ seg, seg ∈ xs.splitOn c ↔ IsDelimitedRun c seg xs := by
  induction n with
  | zero =>
    intro xs hlen seg
    have hxs : xs = [] := List.eq_nil_of_length_eq_zero (by omega)
    subst hxs
    simp only [List.splitOn_nil, List.mem_singleton, IsDelimitedRun]
    constructor
    · rintro rfl
      exact ⟨by simp, [], [], rfl, Or.inl rfl, Or.inl rfl⟩
    · rintro ⟨-, pre, post, h, -, -⟩
      have := congrArg List.length h
      simp at this
      exact List.eq_nil_of_length_eq_zero (by omega)
  | succ n ih =>
    intro xs hlen seg
    by_cases hc : c ∈ xs
    · obtain ⟨h, q, rfl, hcn⟩ := List.eq_append_cons_of_mem hc
      have hq : q.length ≤ n := by
        simp at hlen
        omega
      rw [splitOn_first c h q hcn, List.mem_cons, ih q hq seg]
      constructor
      · rintro (rfl | ⟨hs, pre, post, hqe, hpre, hpost⟩)
        · exact ⟨hcn, [], c :: q, by simp, Or.inl rfl, Or.inr rfl⟩
        · refine ⟨hs, h ++ c :: pre, post, by simp [hqe], Or.inr ?_, hpost⟩
          rcases hpre with rfl | hpre
          · simp
          · obtain ⟨p0, rfl⟩ := List.getLast?_eq_some_iff.mp hpre
            rw [show h ++ c :: (p0 ++ [c]) = (h ++ c :: p0) ++ [c] by simp]
            exact List.getLast?_concat _
      · rintro ⟨hs, pre, post, he, hpre, hpost⟩
        rcases hpre with rfl | hpre
        · rcases hpost with rfl | hpost
          · simp only [List.nil_append, List.append_nil] at he
            exact absurd (by simp [← he]) hs
          · cases post with
            | nil => simp at hpost
            | cons y post =>
              simp only [List.head?_cons, Option.some.injEq] at hpost
              subst hpost
              simp only [List.nil_append] at he
              left
              exact (first_sep_unique _ h seg q post hcn hs he).1.symm
        · obtain ⟨p0, rfl⟩ := List.getLast?_eq_some_iff.mp hpre
          have he2 : h ++ c :: q = p0 ++ c :: (seg ++ post) := by simp [he]
          rcases List.append_eq_append_iff.mp he2 with ⟨a, ha, hb⟩ | ⟨b, hb1, hb2⟩
          · cases a with
            | nil =>
              simp only [List.nil_append, List.cons.injEq, true_and] at hb
              exact Or.inr ⟨hs, [], post, by simp [hb], Or.inl rfl, hpost⟩
            | cons z a =>
              simp only [List.cons_append, List.cons.injEq] at hb
              exact Or.inr ⟨hs, a ++ [c], post, by simp [hb.2], Or.inr (List.getLast?_concat _),
                hpost⟩
          · cases b with
            | nil =>
              simp only [List.nil_append, List.cons.injEq, true_and] at hb2
              exact Or.inr ⟨hs, [], post, by simp [hb2], Or.inl rfl, hpost⟩
            | cons z b =>
              simp only [List.cons_append, List.cons.injEq] at hb2
              exact absurd (by simp [hb1, ← hb2.1]) hcn
    · rw [splitOn_of_not_mem c xs hc, List.mem_singleton]
      constructor
      · rintro rfl
        exact ⟨hc, [], [], by simp, Or.inl rfl, Or.inl rfl⟩
      · rintro ⟨-, pre, post, he, hpre, hpost⟩
        rcases hpre with rfl | hpre
        · rcases hpost with rfl | hpost
          · simpa using he.symm
          · cases post with
            | nil => simp at hpost
            | cons y post =>
              simp only [List.head?_cons, Option.some.injEq] at hpost
              exact absurd (by simp [he, hpost]) hc
        · obtain ⟨p0, rfl⟩ := List.getLast?_eq_some_iff.mp hpre
          exact absurd (by simp [he]) hc

/-- The pieces of a path split at `/` are its maximal runs without `/`. -/
theorem isSegment_iff_delimitedRun (seg path : List Char) :
    IsSegment seg path ↔ IsDelimitedRun '/' seg path :=
  mem_splitOn_iff_aux '/' path.length path (le_refl _) seg

theorem regex_search_read_iff (fullpath : String) :
    regex_search fullpath read_re = true ↔ HasReadSegment fullpath := by
  simp only [regex_search, regex_search_from_iff, ends_read_re, Bool.true_and, HasReadSegment,
    isSegment_iff_delimitedRun, IsDelimitedRun, ReadMatchAt]
  constructor
  · rintro ⟨pre, t, hdata, s1, hs1, rest, post, hs, hne, hc, hpost⟩
    refine ⟨rest, hne, ?_, ?_⟩
    · simpa [read_data] using hc
    · rcases hs1 with ⟨hpre, rfl⟩ | ht
      · have hpre : pre = [] := by simpa using hpre
        exact ⟨[], post, by simp [hdata, hpre, hs], Or.inl rfl, hpost⟩
      · exact ⟨pre ++ ['/'], post, by simp [hdata, ht, hs], Or.inr (by simp), hpost⟩
  · rintro ⟨rest, hne, hc, pre, post, hdata, hpre, hpost⟩
    have hc1 : '/' ∉ rest := fun h => hc (List.mem_append_right _ h)
    rcases hpre with rfl | hpre
    · exact ⟨[], _, by simpa using hdata, _, Or.inl ⟨rfl, rfl⟩, rest, post, rfl, hne, hc1, hpost⟩
    · obtain ⟨q, rfl⟩ := List.getLast?_eq_some_iff.mp hpre
      exact ⟨q, '/' :: ("read_".data ++ rest ++ post), by simp [hdata], _, Or.inr rfl,
        rest, post, rfl, hne, hc1, hpost⟩

/-- C1: `is_target_dataset(fullpath, name)` is true exactly when `name` is `Raw` or `Signal`
and `fullpath` has a slash-delimited segment made of `read_` and at least one more character
(both copies of the function); `/read_0001/Raw` is a target, `/read_0001/Other` and
`/other/Raw` are not. -/
theorem C1_is_target_dataset_iff :
    (∀ fullpath name : String, SrcCode.is_target_dataset fullpath name = true ↔
      ((name = "Raw" ∨ name = "Signal") ∧ HasReadSegment fullpath)) ∧
    (∀ fullpath name : String, Bench.is_target_dataset fullpath name = true ↔
      ((name = "Raw" ∨ name = "Signal") ∧ HasReadSegment fullpath)) ∧
    SrcCode.is_target_dataset "/read_0001/Raw" "Raw" = true ∧
    SrcCode.is_target_dataset "/read_0001/Other" "Other" = false ∧
    SrcCode.is_target_dataset "/other/Raw" "Raw" = false ∧
    Bench.is_target_dataset "/read_0001/Raw" "Raw" = true ∧
    Bench.is_target_dataset "/read_0001/Other" "Other" = false ∧
    Bench.is_target_dataset "/other/Raw" "Raw" = false := by
  refine ⟨?_, ?_, by decide, by decide, by decide, by decide, by decide, by decide⟩
  · intro fullpath name
    rw [← regex_search_read_iff]
    by_cases h : name = "Raw" ∨ name = "Signal"
    · rcases h with h | h <;> simp [SrcCode.is_target_dataset, h]
    · simp only [h, false_and, iff_false]
      rw [not_or] at h
      simp [SrcCode.is_target_dataset, h.1, h.2]
  · intro fullpath name
    rw [← regex_search_read_iff]
    by_cases h : name = "Raw" ∨ name = "Signal"
    · rcases h with h | h <;> simp [Bench.is_target_dataset, Bench.path_has_read_prefix, h]
    · simp only [h, false_and, iff_false]
      rw [not_or] at h
      simp [Bench.is_target_dataset, h.1, h.2]


/-! ## The chunk heuristic -/

theorem clamped_prod_pos (chunk : List Nat) : 1 ≤ clamped_prod chunk := by
  induction chunk with
  | nil => simp [clamped_prod]
  | cons d t ih =>
    have h : clamped_prod (d :: t) = (if d > 0 then d else 1) * clamped_prod t := by
      simp [clamped_prod]
    rw [h]
    have hd : 1 ≤ (if d > 0 then d else 1) := by split <;> omega
    exact Nat.mul_pos hd ih

theorem clamped_prod_cons (d : Nat) (t : List Nat) :
    clamped_prod (d :: t) = (if d > 0 then d else 1) * clamped_prod t := by
  simp [clamped_prod]

theorem foldl_prod_eq (chunk : List Nat) (acc : Nat) (h : acc * clamped_prod chunk < 2 ^ 64) :
    chunk.foldl (fun prod d => (prod * (if d > 0 then d else 1)) % 2 ^ 64) acc =
      acc * clamped_prod chunk := by
  induction chunk generalizing acc with
  | nil => simp [clamped_prod]
  | cons d t ih =>
    rw [clamped_prod_cons] at h
    rw [clamped_prod_cons, List.foldl_cons]
    have ht := clamped_prod_pos t
    have hle : acc * (if d > 0 then d else 1) ≤
        acc * ((if d > 0 then d else 1) * clamped_prod t) :=
      Nat.mul_le_mul_left _ (Nat.le_mul_of_pos_right _ ht)
    rw [Nat.mod_eq_of_lt (lt_of_le_of_lt hle h), ih _ (by rwa [Nat.mul_assoc]), Nat.mul_assoc]

/-- Without wrap-around the 64-bit product is the unbounded one. -/
theorem chunk_prod_eq (chunk : List Nat) (h : clamped_prod chunk < 2 ^ 64) :
    chunk_prod chunk = clamped_prod chunk := by
  rw [chunk_prod, foldl_prod_eq chunk 1 (by simpa using h), Nat.one_mul]

theorem chunk_prod_of_le_one (chunk : List Nat) (h : ∀ c ∈ chunk, c ≤ 1) :
    chunk_prod chunk = 1 := by
  have hc : clamped_prod chunk = 1 := by
    induction chunk with
    | nil => simp [clamped_prod]
    | cons d t ih =>
      rw [clamped_prod_cons, ih (fun c hc => h c (List.mem_cons_of_mem _ hc))]
      have hd := h d (List.mem_cons_self _ _)
      split <;> omega
  rw [chunk_prod_eq chunk (by rw [hc]; decide), hc]

theorem halve_le_pow (c n : Nat) (h : c ≤ 2 ^ (n + 1)) : halve c ≤ 2 ^ n := by
  have h2 : 2 ^ (n + 1) = 2 * 2 ^ n := by ring
  have h3 : (c + 1) % 2 ^ 64 ≤ c + 1 := Nat.mod_le _ _
  have h4 : 1 ≤ 2 ^ n := Nat.one_le_two_pow
  unfold halve
  split <;> omega

theorem halve_le_any (c : Nat) : halve c ≤ 2 ^ 63 := by
  unfold halve
  split <;> omega

theorem halve_clamped_le (c : Nat) :
    (if halve c > 0 then halve c else 1) ≤ (if c > 0 then c else 1) := by
  have h3 : (c + 1) % 2 ^ 64 ≤ c + 1 := Nat.mod_le _ _
  unfold halve
  by_cases h1 : c > 1
  · rw [if_pos h1]
    split <;> split <;> omega
  · rw [if_neg h1]

theorem clamped_prod_map_halve_le (chunk : List Nat) :
    clamped_prod (chunk.map halve) ≤ clamped_prod chunk := by
  induction chunk with
  | nil => simp
  | cons d t ih =>
    rw [List.map_cons, clamped_prod_cons, clamped_prod_cons]
    exact Nat.mul_le_mul (halve_clamped_le d) ih

theorem clamped_prod_halving_loop_le (fuel : Nat) (chunk : List Nat) :
    clamped_prod (halving_loop fuel chunk) ≤ clamped_prod chunk := by
  induction fuel generalizing chunk with
  | zero => simp [halving_loop]
  | succ n ih =>
    rw [halving_loop]
    split
    · exact le_trans (ih _) (clamped_prod_map_halve_le chunk)
    · exact le_refl _

theorem halving_loop_exit_of_le (fuel : Nat) (chunk : List Nat)
    (h : ∀ c ∈ chunk, c ≤ 2 ^ fuel) :
    chunk_prod (halving_loop fuel chunk) ≤ MAX_ELEMS := by
  induction fuel generalizing chunk with
  | zero =>
    rw [halving_loop, chunk_prod_of_le_one chunk (by simpa using h)]
    decide
  | succ n ih =>
    rw [halving_loop]
    split
    · apply ih
      intro c hc
      obtain ⟨d, hd, rfl⟩ := List.mem_map.mp hc
      exact halve_le_pow d n (h d hd)
    · omega

/-- Fuel adequacy: for any vector of extents, the loop leaves through its exit test within
64 passes (the returned vector fails the loop condition). -/
theorem halving_loop_exit (chunk : List Nat) :
    chunk_prod (halving_loop 64 chunk) ≤ MAX_ELEMS := by
  rw [halving_loop]
  split
  · apply halving_loop_exit_of_le
    intro c hc
    obtain ⟨d, -, rfl⟩ := List.mem_map.mp hc
    exact halve_le_any d
  · omega

theorem halving_loop_stable (n : Nat) (chunk : List Nat)
    (h : chunk_prod (halving_loop n chunk) ≤ MAX_ELEMS) (m : Nat) (hm : n ≤ m) :
    halving_loop m chunk = halving_loop n chunk := by
  induction n generalizing chunk m with
  | zero =>
    rw [halving_loop] at h
    cases m with
    | zero => rfl
    | succ m => rw [halving_loop, halving_loop, if_neg (by omega)]
  | succ n ih =>
    cases m with
    | zero => omega
    | succ m =>
      rw [halving_loop] at h
      rw [halving_loop, halving_loop]
      split
      · rename_i hp
        rw [if_pos hp] at h
        exact ih _ h m (by omega)
      · rfl

/-- Fuel adequacy: more than 64 passes never change the result. -/
theorem halving_loop_fuel (chunk : List Nat) (m : Nat) (hm : 64 ≤ m) :
    halving_loop m chunk = halving_loop 64 chunk :=
  halving_loop_stable 64 chunk (halving_loop_exit chunk) m hm

theorem halving_loop_length (fuel : Nat) (chunk : List Nat) :
    (halving_loop fuel chunk).length = chunk.length := by
  induction fuel generalizing chunk with
  | zero => rfl
  | succ n ih =>
    rw [halving_loop]
    split
    · rw [ih, List.length_map]
    · rfl

theorem prod_le_clamped_prod (chunk : List Nat) : chunk.prod ≤ clamped_prod chunk := by
  induction chunk with
  | nil => simp [clamped_prod]
  | cons d t ih =>
    rw [List.prod_cons, clamped_prod_cons]
    apply Nat.mul_le_mul _ ih
    split <;> omega

theorem clamped_prod_eq_prod (chunk : List Nat) (h : ∀ d ∈ chunk, 1 ≤ d) :
    clamped_prod chunk = chunk.prod := by
  induction chunk with
  | nil => simp [clamped_prod]
  | cons d t ih =>
    rw [List.prod_cons, clamped_prod_cons, ih (fun c hc => h c (List.mem_cons_of_mem _ hc))]
    have hd := h d (List.mem_cons_self _ _)
    rw [if_pos (by omega)]

/-- The element count of the result of the loop is bounded when the product at entry does not
wrap. -/
theorem halving_loop_prod_le (chunk : List Nat) (h : clamped_prod chunk < 2 ^ 64) :
    (halving_loop 64 chunk).prod ≤ MAX_ELEMS := by
  have h1 := clamped_prod_halving_loop_le 64 chunk
  have h2 := halving_loop_exit chunk
  rw [chunk_prod_eq _ (lt_of_le_of_lt h1 h)] at h2
  exact le_trans (prod_le_clamped_prod _) h2

/-! ## The policy decision of the walkers -/

theorem setChunk_eq_none_of_zero (env : Env) (p : DSetCreatPropList) (chunk : List Nat)
    (h : 0 ∈ chunk) : p.setChunk env chunk = none := by
  have hall : chunk.all (fun d => decide (d > 0)) = false := by
    rw [List.all_eq_false]
    exact ⟨0, h, by simp⟩
  simp [DSetCreatPropList.setChunk, hall]

theorem halving_loop_zero_mem (fuel : Nat) :
    ∀ chunk : List Nat, 0 ∈ chunk → 0 ∈ halving_loop fuel chunk := by
  induction fuel with
  | zero =>
    intro chunk h
    simpa [halving_loop] using h
  | succ n ih =>
    intro chunk h
    rw [halving_loop]
    split
    · exact ih _ (List.mem_map.mpr ⟨0, h, by decide⟩)
    · exact h

theorem compute_chunk_zero_mem (dims : List Nat) (h : 0 ∈ dims) : 0 ∈ compute_chunk dims := by
  have hlen : ¬ dims.length = 0 := by
    intro h0
    rw [List.length_eq_zero] at h0
    simp [h0] at h
  simp only [compute_chunk, if_neg hlen]
  exact halving_loop_zero_mem 64 dims h

/-- C3: in both older walkers the property list built for a dataset is the default one (no
chunk shape, no filter stage) whenever the spec is the baseline or the dataset is not a
target; so a non-default list needs a non-baseline spec and a target dataset.  The pass for
such a dataset makes the write call with the default list and no exception leaves it. -/
theorem C3_default_plist_unless_target :
    (∀ (env : Env) (spec : FilterSpec) (gpath name : String) (dims : List Nat),
      (spec.name = "baseline_none" ∨
        SrcCode.is_target_dataset (child_path gpath name) name = false) →
      SrcCode.recurse_child env spec gpath (.dataset name (some dims)) =
        { events := [Event.write (child_path gpath name) dims { chunk := none, filters := [] }],
          thrown := false }) ∧
    (∀ (env : Env) (spec : FilterSpec) (gpath name : String) (dims : List Nat),
      (spec.name = "baseline_none" ∨
        Bench.is_target_dataset (child_path gpath name) name = false) →
      Bench.recurse_child env spec gpath (.dataset name (some dims)) =
        { events := [Event.write (child_path gpath name) dims { chunk := none, filters := [] }],
          thrown := false }) := by
  constructor
  · intro env spec gpath name dims h
    rcases h with h | h
    · simp [SrcCode.recurse_child, SrcCode.build_plist, h]
    · simp [SrcCode.recurse_child, SrcCode.build_plist, h]
  · intro env spec gpath name dims h
    rcases h with h | h
    · simp [Bench.recurse_child, Bench.build_plist, h]
    · simp [Bench.recurse_child, Bench.build_plist, h]

/-- C3 at `/read_0001/Other` under `shuffle_gzip_lvl1`. -/
theorem C3_default_plist_unless_target_witness :
    (sample_gzip.name = "baseline_none" ∨
      SrcCode.is_target_dataset (child_path "/read_0001" "Other") "Other" = false) ∧
    SrcCode.recurse_child env_available sample_gzip "/read_0001" (.dataset "Other" (some [4])) =
      { events := [Event.write (child_path "/read_0001" "Other") [4]
          { chunk := none, filters := [] }],
        thrown := false } :=
  ⟨Or.inr (by decide),
    C3_default_plist_unless_target.1 env_available sample_gzip "/read_0001" "Other" [4]
      (Or.inr (by decide))⟩

/-- C4: for a shape of rank at least one with all extents at least one and an element count
below `2^64`, the chunk shape has at most 1,048,576 elements; the shape `[2000000]` gets the
chunk `[1000000]`. -/
theorem C4_chunk_count_le :
    (∀ dims : List Nat, 1 ≤ dims.length → (∀ d ∈ dims, 1 ≤ d) → dims.prod < 2 ^ 64 →
      (compute_chunk dims).prod ≤ 1048576) ∧
    compute_chunk [2000000] = [1000000] := by
  refine ⟨?_, by decide⟩
  intro dims hrank hpos hcount
  have hlen : ¬ dims.length = 0 := by omega
  simp only [compute_chunk, if_neg hlen]
  have h := halving_loop_prod_le dims (by rwa [clamped_prod_eq_prod dims hpos])
  simpa [MAX_ELEMS] using h

/-- C4 at the shape `[4096, 4096]`. -/
theorem C4_chunk_count_le_witness :
    1 ≤ [4096, 4096].length ∧ (∀ d ∈ [4096, 4096], 1 ≤ d) ∧ [4096, 4096].prod < 2 ^ 64 ∧
    (compute_chunk [4096, 4096]).prod ≤ 1048576 :=
  ⟨by decide, by decide, by decide,
    C4_chunk_count_le.1 [4096, 4096] (by decide) (by decide) (by decide)⟩

/-- C5 (the code departs from the claim): a zero extent stays in the chunk shape.  For the
shape `[0]` the product guard `(d>0?d:1)` gives `prod = 1`, the loop is not entered, and the
chunk handed to `setChunk` for the target `/read_0001/Raw` is `[0]`; every shape with a zero
extent keeps one in its chunk shape.  `setChunk` throws on every shape with a zero extent, so
no property list is built and the pass for the dataset is left by the exception before the
write. -/
theorem C5_zero_extent_stays :
    compute_chunk [0] = [0] ∧
    (∀ dims : List Nat, 0 ∈ dims → 0 ∈ compute_chunk dims) ∧
    (∀ (env : Env) (p : DSetCreatPropList) (chunk : List Nat),
      0 ∈ chunk → p.setChunk env chunk = none) ∧
    SrcCode.build_plist env_available sample_gzip true [0] = none ∧
    SrcCode.recurse_child env_available sample_gzip "/read_0001" (.dataset "Raw" (some [0])) =
      { events := [], thrown := true } := by
  exact ⟨by decide, compute_chunk_zero_mem, setChunk_eq_none_of_zero, by decide, by decide⟩

/-- C6 as stated fails for a scalar dataset: the shape `[]` has rank zero and its chunk shape
`{1}` has rank one. -/
theorem C6_rank_zero_counterexample :
    (compute_chunk []).length ≠ ([] : List Nat).length := by
  decide

/-- C6, amended: for every shape of rank at least one the chunk shape has the rank of the
dataset; a zero-rank shape gets the one-element chunk shape `[1]`. -/
theorem C6_chunk_rank :
    (∀ dims : List Nat, 1 ≤ dims.length → (compute_chunk dims).length = dims.length) ∧
    compute_chunk [] = [1] := by
  refine ⟨?_, by decide⟩
  intro dims hrank
  have hlen : ¬ dims.length = 0 := by omega
  simp only [compute_chunk, if_neg hlen, halving_loop_length]

/-- C6 (amended) at the shape `[3000, 5000]`. -/
theorem C6_chunk_rank_witness :
    1 ≤ [3000, 5000].length ∧ (compute_chunk [3000, 5000]).length = [3000, 5000].length :=
  ⟨by decide, C6_chunk_rank.1 [3000, 5000] (by decide)⟩

/-! ## The walker `HDF5Parser` and the registry -/

/-- C2 (the code departs from the claim): `HDF5Parser` decides on the leaf name alone.  The
dataset `/other/Raw` has no `read_` segment and is no target for `is_target_dataset`, yet
under `shuffle_gzip_lvl1` the walk from the root writes it chunked and filtered. -/
theorem C2_parser_ignores_record_group :
    SrcCode.is_target_dataset "/other/Raw" "Raw" = false ∧
    New.is_target "Raw" = true ∧
    New.HDF5Parser env_available sample_gzip "/"
        [.group "other" [.dataset "Raw" (some [4])]] =
      { events := [Event.createGroup "/other",
          Event.write "/other/Raw" [4] { chunk := some [4], filters := [.shuffle, .deflate 1] }],
        thrown := false } ∧
    SrcCode.recurse env_available sample_gzip "/"
        [.group "other" [.dataset "Raw" (some [4])]] =
      { events := [Event.createGroup "/other",
          Event.write "/other/Raw" [4] { chunk := none, filters := [] }],
        thrown := false } := by
  refine ⟨by decide, by decide, by decide, by decide⟩

/-- C7 (the code departs from the claim): with every filter available, the filter stages
that `HDF5Parser` puts into the property list of the target `/read_0001/Raw`, for each spec
of `register_all_filters` in order.  The spec `szip` (registered with `requires_avail` false
and an empty `apply`) and the three VBZ specs (whose `apply` runs only when the filter is not
available) get none. -/
theorem C7_registered_specs_filter_stages :
    ((New.register_all_filters {}).getAll.map fun spec =>
        (spec.name, New.HDF5Parser env_available spec "/read_0001" [.dataset "Raw" (some [4])])) =
      [("baseline_none", { events := [Event.write "/read_0001/Raw" [4]
          { chunk := none, filters := [] }], thrown := false }),
       ("shuffle_gzip_lvl1", { events := [Event.write "/read_0001/Raw" [4]
          { chunk := some [4], filters := [.shuffle, .deflate 1] }], thrown := false }),
       ("shuffle_gzip_lvl2", { events := [Event.write "/read_0001/Raw" [4]
          { chunk := some [4], filters := [.shuffle, .deflate 6] }], thrown := false }),
       ("shuffle_gzip_lvl3", { events := [Event.write "/read_0001/Raw" [4]
          { chunk := some [4], filters := [.shuffle, .deflate 9] }], thrown := false }),
       ("szip", { events := [Event.write "/read_0001/Raw" [4]
          { chunk := some [4], filters := [] }], thrown := false }),
       ("vbz_level_1", { events := [Event.write "/read_0001/Raw" [4]
          { chunk := some [4], filters := [] }], thrown := false }),
       ("vbz_level_11", { events := [Event.write "/read_0001/Raw" [4]
          { chunk := some [4], filters := [] }], thrown := false }),
       ("vbz_level_22", { events := [Event.write "/read_0001/Raw" [4]
          { chunk := some [4], filters := [] }], thrown := false })] := by
  decide

/-- C8 (the code departs from the claim): the availability test of `HDF5Parser` is inverted.
For the registered spec `vbz_level_1` (`requires_avail` true, `check_id` 32020) and the
target shape `[4]`, the list has no filter stage when the filter is available and has the VBZ
stage when it is not. -/
theorem C8_parser_availability_inverted :
    (((New.register_all_filters {}).getAll.filter fun spec => spec.name == "vbz_level_1").map
      fun spec => (spec.requires_avail, spec.check_id,
        New.build_plist env_available spec (New.is_target "Raw") [4],
        New.build_plist env_unavailable spec (New.is_target "Raw") [4])) =
      [(true, 32020,
        some { chunk := some [4], filters := [] },
        some { chunk := some [4], filters := [.filter 32020 0 [0, 1, 1, 1]] })] := by
  decide

/-! ## The walker of `src_code.cpp` -/

theorem srccode_run_one_name (env : Env) (src : List H5Obj) (spec : FilterSpec)
    (r : SrcCode.Result) (h : SrcCode.run_one env src spec = some r) :
    r.filter_name = spec.name := by
  simp only [SrcCode.run_one] at h
  split at h
  · simp only [Option.some.injEq] at h
    rw [← h]
  · split at h
    · simp at h
    · simp only [Option.some.injEq] at h
      rw [← h]

theorem bench_run_one_name (env : Env) (src : List H5Obj) (spec : FilterSpec)
    (r : Bench.Result) (h : Bench.run_one env src spec = some r) :
    r.filter_name = spec.name := by
  simp only [Bench.run_one] at h
  split at h
  · simp only [Option.some.injEq] at h
    rw [← h]
  · split at h
    · simp at h
    · simp only [Option.some.injEq] at h
      rw [← h]

/-- The specs of the list that the benchmark loop runs: all but those with `requires_avail`,
a non-zero `check_id` and an unavailable filter. -/
theorem srccode_bench_loop_names (env : Env) (src : List H5Obj) (baseline_res : SrcCode.Result)
    (others : List FilterSpec) :
    ∀ rows, SrcCode.bench_loop env src baseline_res others = some rows →
      rows.map (fun r => r.filter_name) =
        (others.filter fun spec =>
          !(spec.requires_avail && spec.check_id != 0 && !env.H5Zfilter_avail spec.check_id)).map
          (fun spec => spec.name) := by
  induction others with
  | nil =>
    intro rows h
    simp only [SrcCode.bench_loop, Option.some.injEq] at h
    simp [← h]
  | cons spec others ih =>
    intro rows h
    by_cases hs : (spec.requires_avail && spec.check_id != 0 &&
        !env.H5Zfilter_avail spec.check_id) = true
    · simp only [SrcCode.bench_loop, hs, if_true] at h
      simp only [List.filter_cons, hs, Bool.not_true, Bool.false_eq_true, if_false]
      exact ih rows h
    · have h1 : (spec.requires_avail && spec.check_id != 0 &&
          !env.H5Zfilter_avail spec.check_id) = false := by simpa using hs
      simp only [SrcCode.bench_loop, h1, Bool.false_eq_true, if_false] at h
      cases hr : SrcCode.run_one env src spec with
      | none => simp [hr] at h
      | some r =>
        cases hl : SrcCode.bench_loop env src baseline_res others with
        | none => simp [hr, hl] at h
        | some rest =>
          simp only [hr, hl, Option.some.injEq] at h
          have hn := srccode_run_one_name env src spec r hr
          simp only [List.filter_cons, h1, Bool.not_false, if_true, List.map_cons, ← h,
            ih rest hl, hn]

theorem bench_bench_loop_names (env : Env) (src : List H5Obj) (baseline_res : Bench.Result)
    (others : List FilterSpec) :
    ∀ rows, Bench.bench_loop env src baseline_res others = some rows →
      rows.map (fun r => r.filter_name) =
        (others.filter fun spec =>
          !(spec.requires_avail && spec.check_id != 0 && !env.H5Zfilter_avail spec.check_id)).map
          (fun spec => spec.name) := by
  induction others with
  | nil =>
    intro rows h
    simp only [Bench.bench_loop, Option.some.injEq] at h
    simp [← h]
  | cons spec others ih =>
    intro rows h
    by_cases hs : (spec.requires_avail && spec.check_id != 0 &&
        !env.H5Zfilter_avail spec.check_id) = true
    · simp only [Bench.bench_loop, hs, if_true] at h
      simp only [List.filter_cons, hs, Bool.not_true, Bool.false_eq_true, if_false]
      exact ih rows h
    · have h1 : (spec.requires_avail && spec.check_id != 0 &&
          !env.H5Zfilter_avail spec.check_id) = false := by simpa using hs
      simp only [Bench.bench_loop, h1, Bool.false_eq_true, if_false] at h
      cases hr : Bench.run_one env src spec with
      | none => simp [hr] at h
      | some r =>
        cases hl : Bench.bench_loop env src baseline_res others with
        | none => simp [hr, hl] at h
        | some rest =>
          simp only [hr, hl, Option.some.injEq] at h
          have hn := bench_run_one_name env src spec r hr
          simp only [List.filter_cons, h1, Bool.not_false, if_true, List.map_cons, ← h,
            ih rest hl]
          congr 1
          split <;> exact hn

/-- The benchmark loop returns its rows when every run that it makes returns. -/
theorem srccode_bench_loop_returns (env : Env) (src : List H5Obj)
    (baseline_res : SrcCode.Result) (others : List FilterSpec)
    (h : ∀ spec ∈ others,
      (spec.requires_avail && spec.check_id != 0 && !env.H5Zfilter_avail spec.check_id) = false →
      (SrcCode.run_one env src spec).isSome = true) :
    (SrcCode.bench_loop env src baseline_res others).isSome = true := by
  induction others with
  | nil => simp [SrcCode.bench_loop]
  | cons spec others ih =>
    have ih2 := ih (fun sp hsp => h sp (List.mem_cons_of_mem _ hsp))
    by_cases hs : (spec.requires_avail && spec.check_id != 0 &&
        !env.H5Zfilter_avail spec.check_id) = true
    · simpa only [SrcCode.bench_loop, hs, if_true] using ih2
    · have h1 : (spec.requires_avail && spec.check_id != 0 &&
          !env.H5Zfilter_avail spec.check_id) = false := by simpa using hs
      have hr := h spec (List.mem_cons_self _ _) h1
      obtain ⟨r, hr⟩ := Option.isSome_iff_exists.mp hr
      obtain ⟨rest, hl⟩ := Option.isSome_iff_exists.mp ih2
      simp [SrcCode.bench_loop, h1, hr, hl]

theorem bench_bench_loop_returns (env : Env) (src : List H5Obj)
    (baseline_res : Bench.Result) (others : List FilterSpec)
    (h : ∀ spec ∈ others,
      (spec.requires_avail && spec.check_id != 0 && !env.H5Zfilter_avail spec.check_id) = false →
      (Bench.run_one env src spec).isSome = true) :
    (Bench.bench_loop env src baseline_res others).isSome = true := by
  induction others with
  | nil => simp [Bench.bench_loop]
  | cons spec others ih =>
    have ih2 := ih (fun sp hsp => h sp (List.mem_cons_of_mem _ hsp))
    by_cases hs : (spec.requires_avail && spec.check_id != 0 &&
        !env.H5Zfilter_avail spec.check_id) = true
    · simpa only [Bench.bench_loop, hs, if_true] using ih2
    · have h1 : (spec.requires_avail && spec.check_id != 0 &&
          !env.H5Zfilter_avail spec.check_id) = false := by simpa using hs
      have hr := h spec (List.mem_cons_self _ _) h1
      obtain ⟨r, hr⟩ := Option.isSome_iff_exists.mp hr
      obtain ⟨rest, hl⟩ := Option.isSome_iff_exists.mp ih2
      simp [Bench.bench_loop, h1, hr, hl]

/-- C10 (the code departs from the claim): in both programs, when the baseline run returns a
row with a non-zero size and every later run that is made returns, the benchmark returns its
rows and their filter names are the name of the first spec followed by the names, in order,
of exactly those remaining specs that are not (`requires_avail`, non-zero `check_id`,
unavailable filter).  A later run need not return: for a source with the target
`/read_0001/Raw` of shape `[0]` the baseline run returns a row of 4 MiB, the run of
`shuffle_gzip_lvl1` is left by the exception of `setChunk`, and the benchmark ends without
any row. -/
theorem C10_result_names :
    (∀ (env : Env) (src : List H5Obj) (baseline_spec : FilterSpec) (others : List FilterSpec)
        (baseline_res : SrcCode.Result),
      SrcCode.run_one env src baseline_spec = some baseline_res → baseline_res.file_mb ≠ 0 →
      (∀ spec ∈ others,
        (spec.requires_avail && spec.check_id != 0 &&
          !env.H5Zfilter_avail spec.check_id) = false →
        (SrcCode.run_one env src spec).isSome = true) →
      ∃ results, SrcCode.benchmark env src baseline_spec others = some (Except.ok results) ∧
        results.map (fun r => r.filter_name) =
          baseline_spec.name :: (others.filter fun spec =>
            !(spec.requires_avail && spec.check_id != 0 &&
              !env.H5Zfilter_avail spec.check_id)).map (fun spec => spec.name)) ∧
    (∀ (env : Env) (src : List H5Obj) (baseline_spec : FilterSpec) (others : List FilterSpec)
        (baseline_res : Bench.Result),
      Bench.run_one env src baseline_spec = some baseline_res → baseline_res.file_bytes ≠ 0 →
      (∀ spec ∈ others,
        (spec.requires_avail && spec.check_id != 0 &&
          !env.H5Zfilter_avail spec.check_id) = false →
        (Bench.run_one env src spec).isSome = true) →
      ∃ results, Bench.benchmark env src baseline_spec others = some (Except.ok results) ∧
        results.map (fun r => r.filter_name) =
          baseline_spec.name :: (others.filter fun spec =>
            !(spec.requires_avail && spec.check_id != 0 &&
              !env.H5Zfilter_avail spec.check_id)).map (fun spec => spec.name)) ∧
    (∃ results, SrcCode.benchmark env_unavailable [H5Obj.group "read_0001"
          [H5Obj.dataset "Raw" (some [4])]] sample_baseline [sample_gzip, sample_lz4] =
        some (Except.ok results) ∧
      results.map (fun r => r.filter_name) = ["baseline_none", "shuffle_gzip_lvl1"]) ∧
    SrcCode.run_one env_available [H5Obj.group "read_0001" [H5Obj.dataset "Raw" (some [0])]]
        sample_baseline =
      some { filter_name := "baseline_none", file_mb := 4, ratio := 0 } ∧
    SrcCode.run_one env_available [H5Obj.group "read_0001" [H5Obj.dataset "Raw" (some [0])]]
        sample_gzip = none ∧
    SrcCode.benchmark env_available [H5Obj.group "read_0001" [H5Obj.dataset "Raw" (some [0])]]
        sample_baseline [sample_gzip] = none ∧
    Bench.benchmark env_available [H5Obj.group "read_0001" [H5Obj.dataset "Raw" (some [0])]]
        sample_baseline [sample_gzip] = none := by
  have general1 : ∀ (env : Env) (src : List H5Obj) (baseline_spec : FilterSpec)
      (others : List FilterSpec) (baseline_res : SrcCode.Result),
      SrcCode.run_one env src baseline_spec = some baseline_res → baseline_res.file_mb ≠ 0 →
      (∀ spec ∈ others,
        (spec.requires_avail && spec.check_id != 0 &&
          !env.H5Zfilter_avail spec.check_id) = false →
        (SrcCode.run_one env src spec).isSome = true) →
      ∃ results, SrcCode.benchmark env src baseline_spec others = some (Except.ok results) ∧
        results.map (fun r => r.filter_name) =
          baseline_spec.name :: (others.filter fun spec =>
            !(spec.requires_avail && spec.check_id != 0 &&
              !env.H5Zfilter_avail spec.check_id)).map (fun spec => spec.name) := by
    intro env src baseline_spec others baseline_res hb hsize hruns
    obtain ⟨rows, hrows⟩ := Option.isSome_iff_exists.mp
      (srccode_bench_loop_returns env src baseline_res others hruns)
    refine ⟨baseline_res :: rows, by simp [SrcCode.benchmark, hb, hsize, hrows], ?_⟩
    rw [List.map_cons, srccode_bench_loop_names env src baseline_res others rows hrows,
      srccode_run_one_name env src baseline_spec baseline_res hb]
  refine ⟨general1, ?_, ?_, by decide, by decide, ?_, ?_⟩
  · intro env src baseline_spec others baseline_res hb hsize hruns
    obtain ⟨rows, hrows⟩ := Option.isSome_iff_exists.mp
      (bench_bench_loop_returns env src baseline_res others hruns)
    refine ⟨baseline_res :: rows, by simp [Bench.benchmark, hb, hsize, hrows], ?_⟩
    rw [List.map_cons, bench_bench_loop_names env src baseline_res others rows hrows,
      bench_run_one_name env src baseline_spec baseline_res hb]
  · exact general1 env_unavailable _ sample_baseline [sample_gzip, sample_lz4]
      { filter_name := "baseline_none", file_mb := 4, ratio := 0 } (by decide) (by decide)
      (by decide)
  · have h1 : SrcCode.run_one env_available
        [H5Obj.group "read_0001" [H5Obj.dataset "Raw" (some [0])]] sample_baseline =
        some { filter_name := "baseline_none", file_mb := 4, ratio := 0 } := by decide
    have h2 : SrcCode.run_one env_available
        [H5Obj.group "read_0001" [H5Obj.dataset "Raw" (some [0])]] sample_gzip = none := by
      decide
    have h3 : (sample_gzip.requires_avail && sample_gzip.check_id != 0 &&
        !env_available.H5Zfilter_avail sample_gzip.check_id) = false := by decide
    simp [SrcCode.benchmark, SrcCode.bench_loop, h1, h2, h3]
  · have h1 : Bench.run_one env_available
        [H5Obj.group "read_0001" [H5Obj.dataset "Raw" (some [0])]] sample_baseline =
        some { filter_name := "baseline_none", file_bytes := 4194304, ratio := 0,
               reduction_pct := 0 } := by decide
    have h2 : Bench.run_one env_available
        [H5Obj.group "read_0001" [H5Obj.dataset "Raw" (some [0])]] sample_gzip = none := by
      decide
    have h3 : (sample_gzip.requires_avail && sample_gzip.check_id != 0 &&
        !env_available.H5Zfilter_avail sample_gzip.check_id) = false := by decide
    simp [Bench.benchmark, Bench.bench_loop, h1, h2, h3]

/-! ## The result rows -/

theorem srccode_run_one_ratio (env : Env) (src : List H5Obj) (spec : FilterSpec)
    (r : SrcCode.Result) (h : SrcCode.run_one env src spec = some r) : r.ratio = 0 := by
  simp only [SrcCode.run_one] at h
  split at h
  · simp only [Option.some.injEq] at h
    rw [← h]
  · split at h
    · simp at h
    · simp only [Option.some.injEq] at h
      rw [← h]

theorem bench_run_one_ratio (env : Env) (src : List H5Obj) (spec : FilterSpec)
    (r : Bench.Result) (h : Bench.run_one env src spec = some r) : r.ratio = 0 := by
  simp only [Bench.run_one] at h
  split at h
  · simp only [Option.some.injEq] at h
    rw [← h]
  · split at h
    · simp at h
    · simp only [Option.some.injEq] at h
      rw [← h]

/-- C11 (the code departs from the claim): `run_one` returns every row with ratio `0.0` and
`main` stores the baseline row as returned, so in both programs a benchmark that returns rows
has a first row with the name of the first spec and ratio `0`, not `1` (the other outcomes
are the exit code 4 and the end of the process by an exception); the rows of two sample runs
are listed. -/
theorem C11_baseline_row_ratio_zero :
    (∀ (env : Env) (src : List H5Obj) (b : FilterSpec) (others : List FilterSpec),
      SrcCode.benchmark env src b others = none ∨
      SrcCode.benchmark env src b others = some (Except.error 4) ∨
      ∃ row rest, SrcCode.benchmark env src b others = some (Except.ok (row :: rest)) ∧
        row.filter_name = b.name ∧ row.ratio = 0) ∧
    (∀ (env : Env) (src : List H5Obj) (b : FilterSpec) (others : List FilterSpec),
      Bench.benchmark env src b others = none ∨
      Bench.benchmark env src b others = some (Except.error 4) ∨
      ∃ row rest, Bench.benchmark env src b others = some (Except.ok (row :: rest)) ∧
        row.filter_name = b.name ∧ row.ratio = 0) ∧
    SrcCode.benchmark env_available [] sample_baseline [sample_gzip] =
      some (Except.ok [{ filter_name := "baseline_none", file_mb := 4, ratio := 0 },
                 { filter_name := "shuffle_gzip_lvl1", file_mb := 4, ratio := 1 }]) ∧
    Bench.benchmark env_available [] sample_baseline [sample_gzip] =
      some (Except.ok
        [{ filter_name := "baseline_none", file_bytes := 4194304, ratio := 0,
           reduction_pct := 0 },
         { filter_name := "shuffle_gzip_lvl1", file_bytes := 4194304, ratio := 1,
           reduction_pct := 0 }]) := by
  refine ⟨?_, ?_, ?_, ?_⟩
  · intro env src b others
    cases hr : SrcCode.run_one env src b with
    | none => left; simp [SrcCode.benchmark, hr]
    | some r =>
      by_cases hz : (r.file_mb == 0) = true
      · right; left
        simp [SrcCode.benchmark, hr, hz]
      · cases hl : SrcCode.bench_loop env src r others with
        | none => left; simp [SrcCode.benchmark, hr, hz, hl]
        | some rows =>
          right; right
          exact ⟨r, rows, by simp [SrcCode.benchmark, hr, hz, hl],
            srccode_run_one_name env src b r hr, srccode_run_one_ratio env src b r hr⟩
  · intro env src b others
    cases hr : Bench.run_one env src b with
    | none => left; simp [Bench.benchmark, hr]
    | some r =>
      by_cases hz : (r.file_bytes == 0) = true
      · right; left
        simp [Bench.benchmark, hr, hz]
      · cases hl : Bench.bench_loop env src r others with
        | none => left; simp [Bench.benchmark, hr, hz, hl]
        | some rows =>
          right; right
          exact ⟨r, rows, by simp [Bench.benchmark, hr, hz, hl],
            bench_run_one_name env src b r hr, bench_run_one_ratio env src b r hr⟩
  · simp [SrcCode.benchmark, SrcCode.bench_loop, SrcCode.run_one, SrcCode.recurse,
      env_available, sample_baseline, sample_gzip]
  · simp [Bench.benchmark, Bench.bench_loop, Bench.run_one, Bench.recurse, env_available,
      sample_baseline, sample_gzip]

/-- C12 (the code departs from the claim): `src_code.cpp` computes the ratio from the
truncated MiB counts.  With a baseline of 4194304 bytes and an output of 1572864 bytes the
row has `file_mb = 1` and ratio `1/4`, while the quotient of the byte sizes is `3/8`. -/
theorem C12_ratio_of_truncated_mib :
    env_sizes.file_size "baseline_none.h5" = 4194304 ∧
    env_sizes.file_size "shuffle_gzip_lvl1.h5" = 1572864 ∧
    SrcCode.benchmark env_sizes [] sample_baseline [sample_gzip] =
      some (Except.ok [{ filter_name := "baseline_none", file_mb := 4, ratio := 0 },
                 { filter_name := "shuffle_gzip_lvl1", file_mb := 1, ratio := 1 / 4 }]) ∧
    ((1572864 : ℚ) / 4194304 = 3 / 8) ∧ ((3 : ℚ) / 8 ≠ 1 / 4) := by
  refine ⟨by decide, by decide, ?_, by norm_num, by norm_num⟩
  have h1 : SrcCode.run_one env_sizes [] sample_baseline =
      some { filter_name := "baseline_none", file_mb := 4, ratio := 0 } := by decide
  have h2 : SrcCode.run_one env_sizes [] sample_gzip =
      some { filter_name := "shuffle_gzip_lvl1", file_mb := 1, ratio := 0 } := by decide
  have h3 : (sample_gzip.requires_avail && sample_gzip.check_id != 0 &&
      !env_sizes.H5Zfilter_avail sample_gzip.check_id) = false := by decide
  simp only [SrcCode.benchmark, SrcCode.bench_loop, h1, h2, h3]
  norm_num

theorem bench_loop_row_reduction (env : Env) (src : List H5Obj) (baseline_res : Bench.Result)
    (hb : baseline_res.file_bytes ≠ 0) (others : List FilterSpec) :
    ∀ rows, Bench.bench_loop env src baseline_res others = some rows →
      ∀ row ∈ rows,
        (row.file_bytes ≠ 0 → row.reduction_pct = 100 * (1 - row.ratio)) ∧
        (row.file_bytes = 0 → row.ratio = 0 ∧ row.reduction_pct = 0) := by
  induction others with
  | nil =>
    intro rows h
    simp only [Bench.bench_loop, Option.some.injEq] at h
    simp [← h]
  | cons spec others ih =>
    intro rows h row hrow
    rw [Bench.bench_loop] at h
    split at h
    · exact ih rows h row hrow
    · cases hr : Bench.run_one env src spec with
      | none => simp [hr] at h
      | some r =>
        cases hl : Bench.bench_loop env src baseline_res others with
        | none => simp [hr, hl] at h
        | some rest =>
          simp only [hr, hl, Option.some.injEq] at h
          rw [← h] at hrow
          rcases List.mem_cons.mp hrow with h1 | h1
          · subst h1
            by_cases hz : r.file_bytes = 0
            · have hc : (decide (baseline_res.file_bytes > 0) &&
                  decide (r.file_bytes > 0)) = false := by
                simp [hz]
              simp only [hc, Bool.false_eq_true, if_false]
              simp [hz]
            · have hc : (decide (baseline_res.file_bytes > 0) &&
                  decide (r.file_bytes > 0)) = true := by
                simp only [Bool.and_eq_true, decide_eq_true_eq]
                omega
              simp only [hc, if_true]
              simp [hz]
          · exact ih rest hl row h1

/-- C13 as stated fails for an output of size zero: the row of `lz4`, whose output file is
empty, has ratio `0` and `reduction_pct` `0`, not `100 * (1 - 0)`. -/
theorem C13_zero_size_counterexample :
    Bench.benchmark env_sizes [] sample_baseline [sample_lz4] =
      some (Except.ok
        [{ filter_name := "baseline_none", file_bytes := 4194304, ratio := 0,
           reduction_pct := 0 },
         { filter_name := "lz4", file_bytes := 0, ratio := 0, reduction_pct := 0 }]) ∧
    ((0 : ℚ) ≠ 100 * (1 - 0)) := by
  constructor
  · simp [Bench.benchmark, Bench.bench_loop, Bench.run_one, Bench.recurse, env_sizes,
      sample_baseline, sample_lz4, H5Z_FILTER_LZ4]
  · norm_num

/-- C13, amended: in `hdf_filter_bench.cpp` every row after the baseline row with a non-zero
output size has `reduction_pct = 100 * (1 - ratio)`; a row with output size zero has ratio
`0` and `reduction_pct` `0`. -/
theorem C13_reduction_pct (env : Env) (src : List H5Obj) (b : FilterSpec)
    (others : List FilterSpec) (rows : List Bench.Result)
    (h : Bench.benchmark env src b others = some (Except.ok rows)) :
    ∀ row ∈ rows.tail,
      (row.file_bytes ≠ 0 → row.reduction_pct = 100 * (1 - row.ratio)) ∧
      (row.file_bytes = 0 → row.ratio = 0 ∧ row.reduction_pct = 0) := by
  rw [Bench.benchmark] at h
  cases hr : Bench.run_one env src b with
  | none => simp [hr] at h
  | some r =>
    by_cases hz : (r.file_bytes == 0) = true
    · simp [hr, hz] at h
    · cases hl : Bench.bench_loop env src r others with
      | none => simp [hr, hz, hl] at h
      | some rest =>
        simp only [hr, hz, hl, Bool.false_eq_true, if_false, Option.some.injEq,
          Except.ok.injEq] at h
        subst h
        exact bench_loop_row_reduction env src r (by simpa using hz) others rest hl

/-- C13 (amended) for the specs `baseline_none`, `shuffle_gzip_lvl1`, `lz4` with outputs of
4 MiB, 1.5 MiB and 0 bytes. -/
theorem C13_reduction_pct_witness :
    ∃ rows : List Bench.Result,
      Bench.benchmark env_sizes [] sample_baseline [sample_gzip, sample_lz4] =
        some (Except.ok rows) ∧
      rows.map (fun r => (r.filter_name, r.file_bytes)) =
        [("baseline_none", 4194304), ("shuffle_gzip_lvl1", 1572864), ("lz4", 0)] ∧
      ∀ row ∈ rows.tail,
        (row.file_bytes ≠ 0 → row.reduction_pct = 100 * (1 - row.ratio)) ∧
        (row.file_bytes = 0 → row.ratio = 0 ∧ row.reduction_pct = 0) := by
  have h : Bench.benchmark env_sizes [] sample_baseline [sample_gzip, sample_lz4] =
      some (Except.ok
        [{ filter_name := "baseline_none", file_bytes := 4194304, ratio := 0,
           reduction_pct := 0 },
         { filter_name := "shuffle_gzip_lvl1", file_bytes := 1572864, ratio := 3 / 8,
           reduction_pct := 125 / 2 },
         { filter_name := "lz4", file_bytes := 0, ratio := 0, reduction_pct := 0 }]) := by
    simp [Bench.benchmark, Bench.bench_loop, Bench.run_one, Bench.recurse, env_sizes,
      sample_baseline, sample_gzip, sample_lz4, H5Z_FILTER_LZ4]
    norm_num
  exact ⟨_, h, rfl,
    C13_reduction_pct env_sizes [] sample_baseline [sample_gzip, sample_lz4] _ h⟩

/-- C14 (the code departs from the claim): `src_code.cpp` tests the truncated MiB count, so it
returns exit code 4 exactly when the baseline file cannot be created or the baseline run
returns with a file of less than 1048576 bytes; a baseline of 4096 bytes aborts the benchmark.
`hdf_filter_bench.cpp` tests the byte size and proceeds on the same input. -/
theorem C14_small_baseline_aborts :
    (∀ (env : Env) (src : List H5Obj) (b : FilterSpec) (others : List FilterSpec),
      SrcCode.benchmark env src b others = some (Except.error 4) ↔
        (env.H5File_create_ok (b.name ++ ".h5") = false ∨
          ((SrcCode.recurse env b "/" src).thrown = false ∧
            env.file_size (b.name ++ ".h5") < 1048576))) ∧
    (∀ (env : Env) (src : List H5Obj) (b : FilterSpec) (others : List FilterSpec),
      Bench.benchmark env src b others = some (Except.error 4) ↔
        (env.H5File_create_ok (b.name ++ ".h5") = false ∨
          ((Bench.recurse env b "/" src).thrown = false ∧
            env.file_size (b.name ++ ".h5") = 0))) ∧
    env_small.H5File_create_ok "baseline_none.h5" = true ∧
    env_small.file_size "baseline_none.h5" = 4096 ∧
    SrcCode.benchmark env_small [] sample_baseline [sample_gzip] = some (Except.error 4) ∧
    Bench.benchmark env_small [] sample_baseline [sample_gzip] =
      some (Except.ok
        [{ filter_name := "baseline_none", file_bytes := 4096, ratio := 0, reduction_pct := 0 },
         { filter_name := "shuffle_gzip_lvl1", file_bytes := 4096, ratio := 1,
           reduction_pct := 0 }]) := by
  refine ⟨?_, ?_, by decide, by decide, ?_, ?_⟩
  · intro env src b others
    cases hc : env.H5File_create_ok (b.name ++ ".h5")
    · simp [SrcCode.benchmark, SrcCode.run_one, hc]
    · cases ht : (SrcCode.recurse env b "/" src).thrown
      · by_cases hs : env.file_size (b.name ++ ".h5") < 1048576
        · simp [SrcCode.benchmark, SrcCode.run_one, hc, ht, hs, Nat.div_eq_of_lt]
        · have hne : ¬ env.file_size (b.name ++ ".h5") / (1024 * 1024) = 0 := by
            intro h0
            have := Nat.div_eq_zero_iff (by norm_num : 0 < 1024 * 1024) |>.mp h0
            omega
          have hne2 : ¬ env.file_size (b.name ++ ".h5") / 1048576 = 0 := by
            simpa using hne
          cases hl : SrcCode.bench_loop env src
              { filter_name := b.name, file_mb := env.file_size (b.name ++ ".h5") / 1048576,
                ratio := 0 } others <;>
            simp [SrcCode.benchmark, SrcCode.run_one, hc, ht, hs, hne2, hl]
      · simp [SrcCode.benchmark, SrcCode.run_one, hc, ht]
  · intro env src b others
    cases hc : env.H5File_create_ok (b.name ++ ".h5")
    · simp [Bench.benchmark, Bench.run_one, hc]
    · cases ht : (Bench.recurse env b "/" src).thrown
      · by_cases hs : env.file_size (b.name ++ ".h5") = 0
        · simp [Bench.benchmark, Bench.run_one, hc, ht, hs]
        · cases hl : Bench.bench_loop env src
              { filter_name := b.name, file_bytes := env.file_size (b.name ++ ".h5"),
                ratio := 0, reduction_pct := 0 } others <;>
            simp [Bench.benchmark, Bench.run_one, hc, ht, hs, hl]
      · simp [Bench.benchmark, Bench.run_one, hc, ht]
  · simp [SrcCode.benchmark, SrcCode.run_one, SrcCode.recurse, env_small, sample_baseline]
  · simp [Bench.benchmark, Bench.bench_loop, Bench.run_one, Bench.recurse, env_small,
      sample_baseline, sample_gzip]

/-! ## The structure of the destination -/

mutual
theorem srccode_child_nodes (env : Env) (spec : FilterSpec)
    (hg : ∀ p, env.createGroup_ok p = true) :
    ∀ (gpath : String) (obj : H5Obj), obj.readable = true →
      (SrcCode.recurse_child env spec gpath obj).thrown = false →
      dst_nodes (SrcCode.recurse_child env spec gpath obj).events = src_nodes_child gpath obj
  | gpath, .group name children, h, ht => by
    have hc : all_readable children = true := by simpa [H5Obj.readable] using h
    have ht2 : (SrcCode.recurse env spec (child_path gpath name) children).thrown = false := by
      simpa [SrcCode.recurse_child, hg] using ht
    have h1 := srccode_nodes env spec hg (child_path gpath name) children hc ht2
    simp only [dst_nodes] at h1
    simp [SrcCode.recurse_child, src_nodes_child, hg, dst_nodes, h1]
  | gpath, .dataset name (some dims), _, ht => by
    cases hb : SrcCode.build_plist env spec
        (SrcCode.is_target_dataset (child_path gpath name) name) dims with
    | none => simp [SrcCode.recurse_child, hb] at ht
    | some plist => simp [SrcCode.recurse_child, hb, src_nodes_child, dst_nodes]
  | gpath, .dataset name none, h, _ => by
    simp [H5Obj.readable] at h
  | gpath, .other name, h, _ => by
    simp [H5Obj.readable] at h
theorem srccode_nodes (env : Env) (spec : FilterSpec)
    (hg : ∀ p, env.createGroup_ok p = true) :
    ∀ (gpath : String) (objs : List H5Obj), all_readable objs = true →
      (SrcCode.recurse env spec gpath objs).thrown = false →
      dst_nodes (SrcCode.recurse env spec gpath objs).events = src_nodes gpath objs
  | gpath, [], _, _ => by simp [SrcCode.recurse, src_nodes, dst_nodes]
  | gpath, obj :: objs, h, ht => by
    have h2 : obj.readable = true ∧ all_readable objs = true := by
      simpa [all_readable] using h
    cases hf : (SrcCode.recurse_child env spec gpath obj).thrown with
    | true => simp [SrcCode.recurse, hf] at ht
    | false =>
      have ht2 : (SrcCode.recurse env spec gpath objs).thrown = false := by
        simpa [SrcCode.recurse, hf] using ht
      have h3 := srccode_child_nodes env spec hg gpath obj h2.1 hf
      have h4 := srccode_nodes env spec hg gpath objs h2.2 ht2
      simp only [dst_nodes] at h3 h4 ⊢
      simp [SrcCode.recurse, hf, src_nodes, h3, h4]
end

mutual
theorem srccode_baseline_child_returns (env : Env) (spec : FilterSpec)
    (hb : spec.name = "baseline_none") (hg : ∀ p, env.createGroup_ok p = true) :
    ∀ (gpath : String) (obj : H5Obj),
      (SrcCode.recurse_child env spec gpath obj).thrown = false
  | gpath, .group name children => by
    have h1 := srccode_baseline_returns env spec hb hg (child_path gpath name) children
    simp [SrcCode.recurse_child, hg, h1]
  | gpath, .dataset name (some dims) => by
    simp [SrcCode.recurse_child, SrcCode.build_plist, hb]
  | gpath, .dataset name none => by
    simp [SrcCode.recurse_child]
  | gpath, .other name => by
    simp [SrcCode.recurse_child]
theorem srccode_baseline_returns (env : Env) (spec : FilterSpec)
    (hb : spec.name = "baseline_none") (hg : ∀ p, env.createGroup_ok p = true) :
    ∀ (gpath : String) (objs : List H5Obj),
      (SrcCode.recurse env spec gpath objs).thrown = false
  | gpath, [] => by simp [SrcCode.recurse]
  | gpath, obj :: objs => by
    have h1 := srccode_baseline_child_returns env spec hb hg gpath obj
    have h2 := srccode_baseline_returns env spec hb hg gpath objs
    simp [SrcCode.recurse, h1, h2]
end

/-- C15 (the code departs from the claim): for a source graph of groups and readable
datasets, when every `createGroup` succeeds (and every write, which `dst_nodes` takes for
granted) and no exception leaves the walk of `src_code.cpp`, the (path, kind) pairs of the
destination after the walk from `/` are those of the source, in the same order, and so those
of the baseline run; under a spec named `baseline_none` no exception leaves the walk.  Under
another spec one can: for the graph `/read_0001/{Raw, Other}` with `Raw` of shape `[0]`,
under `shuffle_gzip_lvl1`, the exception of `setChunk` leaves the walk before the first
write, and the destination holds the group alone while the destination of the baseline run
holds all three nodes. -/
theorem C15_destination_mirrors_source :
    (∀ (env : Env) (spec : FilterSpec) (objs : List H5Obj),
      (∀ p, env.createGroup_ok p = true) → all_readable objs = true →
      (SrcCode.recurse env spec "/" objs).thrown = false →
      dst_nodes (SrcCode.recurse env spec "/" objs).events = src_nodes "/" objs) ∧
    (∀ (env : Env) (spec : FilterSpec) (objs : List H5Obj),
      spec.name = "baseline_none" →
      (∀ p, env.createGroup_ok p = true) → all_readable objs = true →
      (SrcCode.recurse env spec "/" objs).thrown = false ∧
      dst_nodes (SrcCode.recurse env spec "/" objs).events = src_nodes "/" objs) ∧
    (∀ (env : Env) (spec : FilterSpec) (objs : List H5Obj),
      (∀ p, env.createGroup_ok p = true) → all_readable objs = true →
      (SrcCode.recurse env spec "/" objs).thrown = false →
      dst_nodes (SrcCode.recurse env spec "/" objs).events =
        dst_nodes (SrcCode.recurse env sample_baseline "/" objs).events) ∧
    (∀ p, env_available.createGroup_ok p = true) ∧
    all_readable [H5Obj.group "read_0001"
        [H5Obj.dataset "Raw" (some [0]), H5Obj.dataset "Other" (some [4])]] = true ∧
    SrcCode.recurse env_available sample_gzip "/" [H5Obj.group "read_0001"
        [H5Obj.dataset "Raw" (some [0]), H5Obj.dataset "Other" (some [4])]] =
      { events := [Event.createGroup "/read_0001"], thrown := true } ∧
    dst_nodes (SrcCode.recurse env_available sample_gzip "/" [H5Obj.group "read_0001"
        [H5Obj.dataset "Raw" (some [0]), H5Obj.dataset "Other" (some [4])]]).events =
      [("/read_0001", Kind.group)] ∧
    dst_nodes (SrcCode.recurse env_available sample_baseline "/" [H5Obj.group "read_0001"
        [H5Obj.dataset "Raw" (some [0]), H5Obj.dataset "Other" (some [4])]]).events =
      [("/read_0001", Kind.group), ("/read_0001/Raw", Kind.dataset),
       ("/read_0001/Other", Kind.dataset)] ∧
    src_nodes "/" [H5Obj.group "read_0001"
        [H5Obj.dataset "Raw" (some [0]), H5Obj.dataset "Other" (some [4])]] =
      [("/read_0001", Kind.group), ("/read_0001/Raw", Kind.dataset),
       ("/read_0001/Other", Kind.dataset)] := by
  refine ⟨?_, ?_, ?_, fun _ => rfl, by decide, by decide, by decide, by decide, by decide⟩
  · intro env spec objs hg hr ht
    exact srccode_nodes env spec hg "/" objs hr ht
  · intro env spec objs hb hg hr
    have ht := srccode_baseline_returns env spec hb hg "/" objs
    exact ⟨ht, srccode_nodes env spec hg "/" objs hr ht⟩
  · intro env spec objs hg hr ht
    rw [srccode_nodes env spec hg "/" objs hr ht,
      srccode_nodes env sample_baseline hg "/" objs hr
        (srccode_baseline_returns env sample_baseline rfl hg "/" objs)]

/-! ## Failures inside `HDF5Parser` -/

/-- C16 (the code departs from the claim): in `HDF5Parser` a failed read or a failed
`createGroup` leaves the loop over the children (`break`), so no later sibling is processed:
after the unreadable `Raw` the readable `Signal` is not written, and after the group `/a`
that cannot be created the group `/b` is not created.  The walker of `src_code.cpp` goes on
with the siblings after a failed read (`continue`); the loop of the parent group goes on in
`HDF5Parser` too. -/
theorem C16_parser_break_drops_siblings :
    (∀ (env : Env) (spec : FilterSpec) (gpath name : String) (later : List H5Obj),
      New.HDF5Parser env spec gpath (H5Obj.dataset name none :: later) =
        { events := [], thrown := false }) ∧
    (∀ (env : Env) (spec : FilterSpec) (gpath name : String) (children later : List H5Obj),
      env.createGroup_ok (child_path gpath name) = false →
      New.HDF5Parser env spec gpath (H5Obj.group name children :: later) =
        { events := [], thrown := false }) ∧
    New.HDF5Parser env_available sample_gzip "/read_0001"
        [H5Obj.dataset "Raw" none, H5Obj.dataset "Signal" (some [4])] =
      { events := [], thrown := false } ∧
    SrcCode.recurse env_available sample_gzip "/read_0001"
        [H5Obj.dataset "Raw" none, H5Obj.dataset "Signal" (some [4])] =
      { events := [Event.write "/read_0001/Signal" [4]
          { chunk := some [4], filters := [.shuffle, .deflate 1] }],
        thrown := false } ∧
    New.HDF5Parser env_group_fails sample_gzip "/"
        [H5Obj.group "a" [], H5Obj.group "b" []] = { events := [], thrown := false } ∧
    New.HDF5Parser env_available sample_gzip "/"
        [H5Obj.group "g" [H5Obj.dataset "x" none, H5Obj.dataset "y" (some [2])],
         H5Obj.dataset "z" (some [2])] =
      { events := [Event.createGroup "/g",
          Event.write "/z" [2] { chunk := none, filters := [] }],
        thrown := false } := by
  refine ⟨?_, ?_, by decide, by decide, by decide, by decide⟩
  · intro env spec gpath name later
    simp [New.HDF5Parser, New.HDF5Parser_child]
  · intro env spec gpath name children later h
    simp [New.HDF5Parser, New.HDF5Parser_child, h]

/-! ## The registry -/

/-- C17: `registerFilter(spec)` makes `spec` the last entry of the catalog, lengthens the
catalog by one and leaves the earlier entries as they were; after any sequence of
`registerFilter` calls `getAll` returns the old entries followed by the registered specs in
call order (on an empty registry: exactly the registered specs). -/
theorem C17_registerFilter_appends :
    (∀ (reg : New.FilterRegistry) (spec : FilterSpec),
      (reg.registerFilter spec).getAll = reg.getAll ++ [spec]) ∧
    (∀ (reg : New.FilterRegistry) (spec : FilterSpec),
      (reg.registerFilter spec).getAll.length = reg.getAll.length + 1) ∧
    (∀ (reg : New.FilterRegistry) (spec : FilterSpec),
      (reg.registerFilter spec).getAll.take reg.getAll.length = reg.getAll) ∧
    (∀ (reg : New.FilterRegistry) (spec : FilterSpec),
      (reg.registerFilter spec).getAll.getLast? = some spec) ∧
    (∀ (reg : New.FilterRegistry) (specs : List FilterSpec),
      (specs.foldl New.FilterRegistry.registerFilter reg).getAll = reg.getAll ++ specs) ∧
    (∀ specs : List FilterSpec,
      (specs.foldl New.FilterRegistry.registerFilter {}).getAll = specs) := by
  have happ : ∀ (reg : New.FilterRegistry) (specs : List FilterSpec),
      (specs.foldl New.FilterRegistry.registerFilter reg).getAll = reg.getAll ++ specs := by
    intro reg specs
    induction specs generalizing reg with
    | nil => simp
    | cons spec specs ih =>
      rw [List.foldl_cons, ih]
      simp [New.FilterRegistry.registerFilter, New.FilterRegistry.getAll]
  refine ⟨?_, ?_, ?_, ?_, happ, ?_⟩
  · intro reg spec
    rfl
  · intro reg spec
    simp [New.FilterRegistry.registerFilter, New.FilterRegistry.getAll]
  · intro reg spec
    simp [New.FilterRegistry.registerFilter, New.FilterRegistry.getAll]
  · intro reg spec
    simp [New.FilterRegistry.registerFilter, New.FilterRegistry.getAll]
  · intro specs
    rw [happ]
    simp [New.FilterRegistry.getAll]

/-- C18: after `register_all_filters` on an empty registry the catalog has eight specs with
pairwise distinct names, and its first entry is `baseline_none` with `requires_avail`
false. -/
theorem C18_registered_names_distinct :
    ((New.register_all_filters {}).getAll.map fun spec => spec.name).Nodup ∧
    ((New.register_all_filters {}).getAll.map fun spec => spec.name) =
      ["baseline_none", "shuffle_gzip_lvl1", "shuffle_gzip_lvl2", "shuffle_gzip_lvl3", "szip",
       "vbz_level_1", "vbz_level_11", "vbz_level_22"] ∧
    ((New.register_all_filters {}).getAll.head?.map fun spec =>
      (spec.name, spec.requires_avail)) = some ("baseline_none", false) := by
  refine ⟨by decide, by decide, by decide⟩

/-- C19 (the code departs from the claim): `initFilters` names the three shuffle+deflate
specs after the loop index, `shuffle_gzip_lvl1`, `shuffle_gzip_lvl2`, `shuffle_gzip_lvl3`,
while they configure the deflate levels `1`, `6`, `9`; no spec is called `shuffle_gzip_lvl6`
or `shuffle_gzip_lvl9`.  The spec list of `src_code.cpp` names them after the level. -/
theorem C19_gzip_names_follow_index :
    (((New.register_all_filters {}).getAll.filter fun spec =>
        spec.check_id == H5Z_FILTER_DEFLATE).map fun spec =>
          (spec.name, (spec.apply {}).filters)) =
      [("shuffle_gzip_lvl1", [.shuffle, .deflate 1]),
       ("shuffle_gzip_lvl2", [.shuffle, .deflate 6]),
       ("shuffle_gzip_lvl3", [.shuffle, .deflate 9])] ∧
    ((New.register_all_filters {}).getAll.filter fun spec =>
        spec.name == "shuffle_gzip_lvl6" || spec.name == "shuffle_gzip_lvl9").length = 0 ∧
    ((SrcCode.specs.filter fun spec =>
        spec.check_id == H5Z_FILTER_DEFLATE).map fun spec =>
          (spec.name, (spec.apply {}).filters)) =
      [("shuffle_gzip_lvl1", [.shuffle, .deflate 1]),
       ("shuffle_gzip_lvl6", [.shuffle, .deflate 6]),
       ("shuffle_gzip_lvl9", [.shuffle, .deflate 9])] := by
  refine ⟨by decide, by decide, by decide⟩

/-! ## The prefix loop of `create_and_write_dataset` -/

theorem find_char_lt (c : Char) (s : List Char) (i : Nat) (h : find_char c s = some i) :
    i < s.length := by
  induction s generalizing i with
  | nil => simp [find_char] at h
  | cons x t ih =>
    rw [find_char] at h
    split at h
    · simp only [Option.some.injEq] at h
      subst h
      simp
    · cases hf : find_char c t with
      | none => simp [hf] at h
      | some j =>
        simp only [hf, Option.map_some', Option.some.injEq] at h
        have := ih j hf
        simp only [List.length_cons]
        omega

theorem find_char_of_not_mem (c : Char) (s : List Char) (h : c ∉ s) : find_char c s = none := by
  induction s with
  | nil => rfl
  | cons x t ih =>
    simp only [List.mem_cons, not_or] at h
    rw [find_char, if_neg (fun hx => h.1 hx.symm), ih h.2]
    rfl

theorem find_char_append_sep (c : Char) (s rest : List Char) (h : c ∉ s) :
    find_char c (s ++ c :: rest) = some s.length := by
  induction s with
  | nil => simp [find_char]
  | cons x t ih =>
    simp only [List.mem_cons, not_or] at h
    rw [List.cons_append, find_char, if_neg (fun hx => h.1 hx.symm), ih h.2]
    rfl

theorem str_find_bounds (p : List Char) (c : Char) (pos slash : Nat)
    (h : str_find p c pos = some slash) : pos ≤ slash ∧ slash < p.length := by
  unfold str_find at h
  cases hf : find_char c (p.drop pos) with
  | none => simp [hf] at h
  | some i =>
    simp only [hf, Option.map_some', Option.some.injEq] at h
    have hi := find_char_lt c _ i hf
    simp only [List.length_drop] at hi
    omega

/-- The prefix loop leaves within `length - pos + 1` passes, whatever the path string. -/
theorem prefix_loop_terminates (env : Env) (fuel : Nat) (dst : List String) (p : List Char)
    (pos : Nat) (cur : List Char) (hpos : pos ≤ p.length) (hfuel : p.length + 1 ≤ fuel + pos) :
    ∃ r, prefix_loop env fuel dst p pos cur = some r := by
  induction fuel generalizing dst pos cur with
  | zero => omega
  | succ n ih =>
    rw [prefix_loop]
    cases hf : str_find p '/' pos with
    | none => exact ⟨_, rfl⟩
    | some slash =>
      obtain ⟨h1, h2⟩ := str_find_bounds p '/' pos slash hf
      simp only
      split
      · obtain ⟨r, hr⟩ := ih dst (slash + 1) (cur ++ '/' :: substr p pos (slash - pos))
          (by omega) (by omega)
        exact ⟨_, by rw [hr]; rfl⟩
      · split
        · obtain ⟨r, hr⟩ := ih (String.mk (cur ++ '/' :: substr p pos (slash - pos)) :: dst)
            (slash + 1) (cur ++ '/' :: substr p pos (slash - pos)) (by omega) (by omega)
          exact ⟨_, by rw [hr]; rfl⟩
        · exact ⟨_, rfl⟩

theorem abs_path_cons (seg : List Char) (segs : List (List Char)) :
    abs_path (seg :: segs) = '/' :: (seg ++ abs_path segs) := by
  simp [abs_path]

theorem abs_path_append (xs ys : List (List Char)) :
    abs_path (xs ++ ys) = abs_path xs ++ abs_path ys := by
  simp [abs_path]

theorem prefix_loop_segments (env : Env) (hok : ∀ q, env.createGroup_ok q = true)
    (dst0 : List String) (rest : List (List Char)) :
    ∀ (s pre cur : List Char) (dst : List String) (fuel : Nat),
      '/' ∉ s → (∀ t ∈ rest, '/' ∉ t) →
      (pre ++ s ++ abs_path rest).length + 1 ≤ fuel + pre.length →
      (∀ g : String, cur.length < g.length → (g ∈ dst ↔ g ∈ dst0)) →
      prefix_loop env fuel dst (pre ++ s ++ abs_path rest) pre.length cur =
        some ((cur_values cur s rest).map
          (fun g => if g ∈ dst0 then FileOp.openGroup g else FileOp.createGroup g), true) := by
  induction rest with
  | nil =>
    intro s pre cur dst fuel hs _ hfuel _
    cases fuel with
    | zero =>
      simp only [List.length_append, Nat.zero_add] at hfuel
      omega
    | succ n =>
      have hf : str_find (pre ++ s ++ abs_path []) '/' pre.length = none := by
        simp [str_find, abs_path, find_char_of_not_mem '/' s hs]
      rw [prefix_loop, hf]
      rfl
  | cons t rest ih =>
    intro s pre cur dst fuel hs hrest hfuel hdst
    cases fuel with
    | zero =>
      simp only [List.length_append, Nat.zero_add] at hfuel
      omega
    | succ n =>
      have hp : pre ++ s ++ abs_path (t :: rest) = pre ++ (s ++ '/' :: (t ++ abs_path rest)) := by
        rw [abs_path_cons, List.append_assoc]
      have hf : str_find (pre ++ s ++ abs_path (t :: rest)) '/' pre.length =
          some (s.length + pre.length) := by
        rw [hp, str_find, List.drop_left, find_char_append_sep '/' s _ hs]
        rfl
      have htok : substr (pre ++ s ++ abs_path (t :: rest)) pre.length
          (s.length + pre.length - pre.length) = s := by
        rw [hp, substr, List.drop_left, Nat.add_sub_cancel, List.take_left]
      have hp2 : pre ++ s ++ abs_path (t :: rest) = (pre ++ s ++ ['/']) ++ t ++ abs_path rest := by
        rw [abs_path_cons]
        simp
      have hlen2 : (pre ++ s ++ ['/']).length = s.length + pre.length + 1 := by
        simp only [List.length_append, List.length_singleton]
        omega
      have hg : (cur.length < (String.mk (cur ++ '/' :: s)).length) := by
        simp [String.length]
      have hrec : ∀ dst2 : List String,
          (∀ g : String, (cur ++ '/' :: s).length < g.length → (g ∈ dst2 ↔ g ∈ dst0)) →
          prefix_loop env n dst2 (pre ++ s ++ abs_path (t :: rest)) (s.length + pre.length + 1)
            (cur ++ '/' :: s) =
          some ((cur_values (cur ++ '/' :: s) t rest).map
            (fun g => if g ∈ dst0 then FileOp.openGroup g else FileOp.createGroup g), true) := by
        intro dst2 h2
        rw [hp2, ← hlen2]
        apply ih t (pre ++ s ++ ['/']) (cur ++ '/' :: s) dst2 n
          (hrest t (List.mem_cons_self _ _))
          (fun u hu => hrest u (List.mem_cons_of_mem _ hu)) _ h2
        rw [← hp2, hlen2]
        omega
      rw [prefix_loop, hf]
      simp only [htok, cur_values, List.map_cons]
      by_cases hmem : String.mk (cur ++ '/' :: s) ∈ dst0
      · have hmem2 : String.mk (cur ++ '/' :: s) ∈ dst := (hdst _ hg).mpr hmem
        rw [if_pos hmem2, if_pos hmem, hrec dst]
        · rfl
        · intro g hgl
          exact hdst g (by simp at hgl; omega)
      · have hmem2 : String.mk (cur ++ '/' :: s) ∉ dst := fun h => hmem ((hdst _ hg).mp h)
        rw [if_neg hmem2, if_neg hmem, if_pos (hok _), hrec]
        · rfl
        · intro g hgl
          have hne : g ≠ String.mk (cur ++ '/' :: s) := by
            intro he
            rw [he] at hgl
            simp [String.length] at hgl
          simp only [List.mem_cons, hne, false_or]
          exact hdst g (by simp at hgl; omega)

theorem cur_values_eq (rest : List (List Char)) :
    ∀ (done : List (List Char)) (s : List Char),
      cur_values (abs_path done) s rest =
        (List.range rest.length).map fun k =>
          String.mk (abs_path (done ++ (s :: rest).take (k + 1))) := by
  induction rest with
  | nil => intro done s; rfl
  | cons t rest ih =>
    intro done s
    have h1 : abs_path done ++ '/' :: s = abs_path (done ++ [s]) := by
      rw [abs_path_append, abs_path_cons]
      simp [abs_path]
    rw [cur_values, h1, ih (done ++ [s]) t, List.length_cons, List.range_succ_eq_map,
      List.map_cons, List.map_map]
    congr 1
    apply List.map_congr_left
    intro k _
    simp

theorem abs_path_take_length_lt (segs : List (List Char)) (m : Nat) (h : m < segs.length) :
    (abs_path (segs.take m)).length < (abs_path segs).length := by
  have h1 : abs_path segs = abs_path (segs.take m) ++ abs_path (segs.drop m) := by
    rw [← abs_path_append, List.take_append_drop]
  have h2 : 0 < (abs_path (segs.drop m)).length := by
    cases hd : segs.drop m with
    | nil =>
      have := congrArg List.length hd
      simp at this
      omega
    | cons x xs => simp [abs_path_cons]
  rw [h1, List.length_append]
  omega

/-- C20: the prefix loop of `create_and_write_dataset` comes to its end for every path
string; for a path `/s1/.../sn` (n at least one, no `/` inside a segment) and a destination
in which `createGroup` succeeds, the calls before `createDataSet` are, in this order, one
`openGroup` (group present) or `createGroup` (group missing) for each of `/s1`, `/s1/s2`,
..., `/s1/.../s(n-1)`, and the dataset path is none of these groups.  The segments need not
be non-empty for this. -/
theorem C20_parent_groups_in_order :
    (∀ (env : Env) (dst : List String) (path : String),
      ∃ ops, create_and_write_dataset env dst path = some ops) ∧
    (∀ (env : Env) (dst : List String) (segs : List (List Char)),
      segs ≠ [] → (∀ seg ∈ segs, '/' ∉ seg) → (∀ q, env.createGroup_ok q = true) →
      create_and_write_dataset env dst (String.mk (abs_path segs)) =
        some ((ancestor_paths segs).map
            (fun g => if g ∈ dst then FileOp.openGroup g else FileOp.createGroup g) ++
          [FileOp.createDataSet (String.mk (abs_path segs))]) ∧
      String.mk (abs_path segs) ∉ ancestor_paths segs) := by
  constructor
  · intro env dst path
    unfold create_and_write_dataset
    simp only
    obtain ⟨r, hr⟩ := prefix_loop_terminates env
      ((match path.data with
        | '/' :: t => t
        | l => l).length + 1) dst
      (match path.data with
        | '/' :: t => t
        | l => l) 0 [] (Nat.zero_le _) (le_refl _)
    exact ⟨_, by rw [hr]; rfl⟩
  · intro env dst segs hne hseg hok
    cases segs with
    | nil => exact absurd rfl hne
    | cons s rest =>
      constructor
      · have hl := prefix_loop_segments env hok dst rest s [] [] dst
          ((s ++ abs_path rest).length + 1) (hseg s (List.mem_cons_self _ _))
          (fun t ht => hseg t (List.mem_cons_of_mem _ ht)) (by simp) (fun _ _ => Iff.rfl)
        have hc := cur_values_eq rest [] s
        simp only [abs_path, List.flatMap_nil, List.nil_append] at hc
        have ha : ancestor_paths (s :: rest) =
            (List.range rest.length).map fun k =>
              String.mk (abs_path ((s :: rest).take (k + 1))) := by
          simp [ancestor_paths]
        simp only [List.nil_append, List.length_nil] at hl
        unfold create_and_write_dataset
        simp only [abs_path_cons]
        rw [hl, ha]
        simp only [abs_path] at hc ⊢
        rw [hc]
        rfl
      · intro hmem
        simp only [ancestor_paths, List.mem_map, List.mem_range] at hmem
        obtain ⟨k, hk, he⟩ := hmem
        have hlt := abs_path_take_length_lt (s :: rest) (k + 1)
          (by simp only [List.length_cons] at hk ⊢; omega)
        have he2 := congrArg String.data he
        simp only at he2
        rw [he2] at hlt
        exact Nat.lt_irrefl _ hlt

/-- C20 for the path `/read_0001/sub/Raw` in a destination that has the group `/read_0001`
only. -/
theorem C20_parent_groups_in_order_witness :
    ["read_0001".data, "sub".data, "Raw".data] ≠ [] ∧
    (∀ seg ∈ ["read_0001".data, "sub".data, "Raw".data], '/' ∉ seg) ∧
    (∀ q, env_available.createGroup_ok q = true) ∧
    create_and_write_dataset env_available ["/read_0001"] "/read_0001/sub/Raw" =
      some [FileOp.openGroup "/read_0001", FileOp.createGroup "/read_0001/sub",
        FileOp.createDataSet "/read_0001/sub/Raw"] :=
  ⟨by decide, by decide, fun _ => rfl,
    (C20_parent_groups_in_order.2 env_available ["/read_0001"]
      ["read_0001".data, "sub".data, "Raw".data] (by decide) (by decide) (fun _ => rfl)).1.trans
      (by decide)⟩

/-! ## More on the chunk heuristic -/

theorem halve_le_self (c : Nat) : halve c ≤ c := by
  have h3 : (c + 1) % 2 ^ 64 ≤ c + 1 := Nat.mod_le _ _
  unfold halve
  split <;> omega

theorem halve_lt_self (c : Nat) (h : 1 < c) : halve c < c := by
  have h3 : (c + 1) % 2 ^ 64 ≤ c + 1 := Nat.mod_le _ _
  unfold halve
  split <;> omega

theorem halve_eq_of_lt (c : Nat) (h : c < 2 ^ 64 - 1) :
    halve c = if c > 1 then (c + 1) / 2 else c := by
  unfold halve
  rw [Nat.mod_eq_of_lt (by omega)]

theorem halve_lt_max (c : Nat) (h : c < 2 ^ 64 - 1) : halve c < 2 ^ 64 - 1 :=
  lt_of_le_of_lt (halve_le_self c) h

theorem halve_pos (c : Nat) (h1 : 1 ≤ c) (h : c < 2 ^ 64 - 1) : 1 ≤ halve c := by
  rw [halve_eq_of_lt c h]
  split <;> omega

theorem le_two_mul_halve (c : Nat) (h : c < 2 ^ 64 - 1) : c ≤ 2 * halve c := by
  rw [halve_eq_of_lt c h]
  split <;> omega

theorem ceil_div_pow_zero (d : Nat) : ceil_div_pow 0 d = d := by
  simp [ceil_div_pow]

theorem ceil_div_pow_le (k d : Nat) : ceil_div_pow k d ≤ d := by
  unfold ceil_div_pow
  have hp : 0 < 2 ^ k := Nat.two_pow_pos k
  rw [Nat.div_le_iff_le_mul_add_pred hp]
  have : d ≤ 2 ^ k * d := Nat.le_mul_of_pos_left d hp
  omega

theorem ceil_div_pow_succ (k d : Nat) :
    ceil_div_pow (k + 1) d = (ceil_div_pow k d + 1) / 2 := by
  unfold ceil_div_pow
  have hp : 0 < 2 ^ k := Nat.two_pow_pos k
  have h1 : (d + 2 ^ k - 1) / 2 ^ k + 1 = (d + 2 ^ k - 1 + 2 ^ k) / 2 ^ k := by
    rw [Nat.add_div_right _ hp]
  rw [h1, Nat.div_div_eq_div_mul, pow_succ]
  congr 1
  omega

theorem halve_ceil_div_pow (k d : Nat) (h : d < 2 ^ 64 - 1) :
    halve (ceil_div_pow k d) = ceil_div_pow (k + 1) d := by
  have hle := ceil_div_pow_le k d
  rw [halve_eq_of_lt _ (by omega), ceil_div_pow_succ]
  split <;> omega

theorem clamped_prod_map_le (f : Nat → Nat) (hf : ∀ d, f d ≤ d) (chunk : List Nat) :
    clamped_prod (chunk.map f) ≤ clamped_prod chunk := by
  induction chunk with
  | nil => simp
  | cons d t ih =>
    rw [List.map_cons, clamped_prod_cons, clamped_prod_cons]
    apply Nat.mul_le_mul _ ih
    have := hf d
    split <;> split <;> omega

theorem map_halve_ceil_div_pow (dims : List Nat) (h : ∀ d ∈ dims, d < 2 ^ 64 - 1) (k : Nat) :
    (dims.map (ceil_div_pow k)).map halve = dims.map (ceil_div_pow (k + 1)) := by
  rw [List.map_map]
  apply List.map_congr_left
  intro d hd
  exact halve_ceil_div_pow k d (h d hd)

theorem map_ceil_div_pow_zero (dims : List Nat) : dims.map (ceil_div_pow 0) = dims := by
  rw [show ceil_div_pow 0 = id from funext ceil_div_pow_zero, List.map_id]

theorem halving_loop_closed_form (dims : List Nat) (hprod : clamped_prod dims < 2 ^ 64)
    (hmax : ∀ d ∈ dims, d < 2 ^ 64 - 1) (fuel : Nat) :
    ∀ j, ∃ k, j ≤ k ∧
      halving_loop fuel (dims.map (ceil_div_pow j)) = dims.map (ceil_div_pow k) ∧
      ∀ i, j ≤ i → i < k → MAX_ELEMS < clamped_prod (dims.map (ceil_div_pow i)) := by
  induction fuel with
  | zero =>
    intro j
    exact ⟨j, le_refl _, rfl, fun i h1 h2 => by omega⟩
  | succ n ih =>
    intro j
    have hno : chunk_prod (dims.map (ceil_div_pow j)) =
        clamped_prod (dims.map (ceil_div_pow j)) :=
      chunk_prod_eq _ (lt_of_le_of_lt (clamped_prod_map_le _ (ceil_div_pow_le j) dims) hprod)
    rw [halving_loop, hno]
    by_cases hgt : clamped_prod (dims.map (ceil_div_pow j)) > MAX_ELEMS
    · rw [if_pos hgt, map_halve_ceil_div_pow dims hmax j]
      obtain ⟨k, hk, heq, hall⟩ := ih (j + 1)
      refine ⟨k, by omega, heq, ?_⟩
      intro i h1 h2
      by_cases hi : i = j
      · subst hi
        exact hgt
      · exact hall i (by omega) h2
    · rw [if_neg hgt]
      exact ⟨j, le_refl _, rfl, fun i h1 h2 => by omega⟩

/-- C24 as stated fails where the 64-bit arithmetic wraps or an extent is zero: the shape
`[2^64 - 1]` gets the chunk `[0]`, which is no `ceil(d / 2^k)` of a positive `d`; the shape
`[0, 2^63, 4]` (no elements) keeps a chunk whose product of `max(1, .)` is `2^65`; the shape
`[0, 2^30]` (no elements) does not keep its full shape. -/
theorem C24_closed_form_counterexample :
    [18446744073709551615].prod < 2 ^ 64 ∧
    compute_chunk [18446744073709551615] = [0] ∧
    (∀ k, [18446744073709551615].map (ceil_div_pow k) ≠ [0]) ∧
    [0, 9223372036854775808, 4].prod < 2 ^ 64 ∧
    compute_chunk [0, 9223372036854775808, 4] = [0, 9223372036854775808, 4] ∧
    1048576 < clamped_prod (compute_chunk [0, 9223372036854775808, 4]) ∧
    [0, 1073741824].prod ≤ 1048576 ∧
    compute_chunk [0, 1073741824] = [0, 1048576] := by
  refine ⟨by decide, by decide, ?_, by decide, by decide, by decide, by decide, by decide⟩
  intro k h
  simp only [List.map_cons, List.map_nil, List.cons.injEq, and_true] at h
  unfold ceil_div_pow at h
  have hp : 0 < 2 ^ k := Nat.two_pow_pos k
  have := (Nat.div_eq_zero_iff hp).mp h
  omega

/-- C24, amended: for a shape of rank at least one whose product of `max(1, di)` is below
`2^64` and whose extents are all below `2^64 - 1`, the chunk shape is
`[ceil(d1/2^k), ..., ceil(dr/2^k)]` for the least `k` at which the product of
`max(1, ceil(di/2^k))` is at most 1,048,576; `k = 0` and the chunk is the full shape when the
product of `max(1, di)` is at most 1,048,576. -/
theorem C24_chunk_closed_form (dims : List Nat) (hrank : 1 ≤ dims.length)
    (hprod : clamped_prod dims < 2 ^ 64) (hmax : ∀ d ∈ dims, d < 2 ^ 64 - 1) :
    ∃ k, compute_chunk dims = dims.map (ceil_div_pow k) ∧
      clamped_prod (dims.map (ceil_div_pow k)) ≤ 1048576 ∧
      (∀ i, i < k → 1048576 < clamped_prod (dims.map (ceil_div_pow i))) ∧
      (clamped_prod dims ≤ 1048576 → k = 0 ∧ compute_chunk dims = dims) := by
  have hlen : ¬ dims.length = 0 := by omega
  obtain ⟨k, -, heq, hall⟩ := halving_loop_closed_form dims hprod hmax 64 0
  rw [map_ceil_div_pow_zero] at heq
  have hc : compute_chunk dims = dims.map (ceil_div_pow k) := by
    simp only [compute_chunk, if_neg hlen, heq]
  have hexit := halving_loop_exit dims
  rw [heq, chunk_prod_eq _
    (lt_of_le_of_lt (clamped_prod_map_le _ (ceil_div_pow_le k) dims) hprod)] at hexit
  have hall2 : ∀ i, i < k → 1048576 < clamped_prod (dims.map (ceil_div_pow i)) := by
    intro i hi
    have := hall i (Nat.zero_le _) hi
    simpa [MAX_ELEMS] using this
  refine ⟨k, hc, by simpa [MAX_ELEMS] using hexit, hall2, ?_⟩
  intro hsmall
  have hk : k = 0 := by
    by_contra hne
    have := hall2 0 (Nat.pos_of_ne_zero hne)
    rw [map_ceil_div_pow_zero] at this
    omega
  subst hk
  exact ⟨rfl, by rw [hc, map_ceil_div_pow_zero]⟩

/-- C24 (amended) at the shape `[2000000]`, where `k = 1`. -/
theorem C24_chunk_closed_form_witness :
    1 ≤ [2000000].length ∧ clamped_prod [2000000] < 2 ^ 64 ∧
    (∀ d ∈ [2000000], d < 2 ^ 64 - 1) ∧
    ∃ k, compute_chunk [2000000] = [2000000].map (ceil_div_pow k) ∧
      clamped_prod ([2000000].map (ceil_div_pow k)) ≤ 1048576 ∧
      (∀ i, i < k → 1048576 < clamped_prod ([2000000].map (ceil_div_pow i))) ∧
      (clamped_prod [2000000] ≤ 1048576 → k = 0 ∧ compute_chunk [2000000] = [2000000]) :=
  ⟨by decide, by decide, by decide,
    C24_chunk_closed_form [2000000] (by decide) (by decide) (by decide)⟩

/-- C26: the halving loop comes to its end for every vector of extents (zero extents and
wrapping products included): when the loop condition holds some extent is above 1, every
extent above 1 gets strictly smaller in the pass and none gets larger; the loop leaves
through its exit test within 64 passes and more passes change nothing. -/
theorem C26_halving_loop_terminates :
    (∀ chunk : List Nat, MAX_ELEMS < chunk_prod chunk → ∃ c ∈ chunk, 1 < c ∧ halve c < c) ∧
    (∀ c : Nat, 1 < c → halve c < c) ∧
    (∀ c : Nat, halve c ≤ c) ∧
    (∀ chunk : List Nat, chunk_prod (halving_loop 64 chunk) ≤ MAX_ELEMS) ∧
    (∀ (chunk : List Nat) (m : Nat), 64 ≤ m → halving_loop m chunk = halving_loop 64 chunk) := by
  refine ⟨?_, halve_lt_self, halve_le_self, halving_loop_exit, halving_loop_fuel⟩
  intro chunk hgt
  by_contra hno
  have hall : ∀ c ∈ chunk, c ≤ 1 := by
    intro c hc
    by_contra h1
    exact hno ⟨c, hc, by omega, halve_lt_self c (by omega)⟩
  rw [chunk_prod_of_le_one chunk hall] at hgt
  simp [MAX_ELEMS] at hgt

/-- C26 at the vector `[3000000, 0]`. -/
theorem C26_halving_loop_terminates_witness :
    MAX_ELEMS < chunk_prod [3000000, 0] ∧ ∃ c ∈ [3000000, 0], 1 < c ∧ halve c < c :=
  ⟨by decide, C26_halving_loop_terminates.1 [3000000, 0] (by decide)⟩

/-- C27 as stated fails when the 64-bit product wraps: for the shape `[2^32, 2^32]` the
product computed by the loop is `0`, the loop is not entered and the chunk keeps `2^64`
elements. -/
theorem C27_wrapped_product_counterexample :
    chunk_prod [4294967296, 4294967296] = 0 ∧
    compute_chunk [4294967296, 4294967296] = [4294967296, 4294967296] ∧
    1048576 < (compute_chunk [4294967296, 4294967296]).prod := by
  refine ⟨by decide, by decide, by decide⟩

/-- C27, amended: for every shape whose product of `max(1, di)`, the product that the loop
computes, stays below `2^64`, the unbounded product of the extents of the chunk shape is at
most 1,048,576. -/
theorem C27_chunk_true_product_le (dims : List Nat) (h : clamped_prod dims < 2 ^ 64) :
    (compute_chunk dims).prod ≤ 1048576 := by
  unfold compute_chunk
  by_cases hlen : dims.length = 0
  · simp only [hlen, if_true]
    decide
  · simp only [hlen, if_false]
    simpa [MAX_ELEMS] using halving_loop_prod_le dims h

/-- C27 (amended) at the shape `[0, 70000, 70000]`. -/
theorem C27_chunk_true_product_le_witness :
    clamped_prod [0, 70000, 70000] < 2 ^ 64 ∧ (compute_chunk [0, 70000, 70000]).prod ≤ 1048576 :=
  ⟨by decide, C27_chunk_true_product_le [0, 70000, 70000] (by decide)⟩

theorem prod_le_prod_map_halve (chunk : List Nat) (h : ∀ d ∈ chunk, d < 2 ^ 64 - 1) :
    chunk.prod ≤ (chunk.map halve).prod * 2 ^ chunk.length := by
  induction chunk with
  | nil => simp
  | cons d t ih =>
    have h1 := le_two_mul_halve d (h d (List.mem_cons_self _ _))
    have h2 := ih (fun c hc => h c (List.mem_cons_of_mem _ hc))
    rw [List.prod_cons, List.map_cons, List.prod_cons, List.length_cons, pow_succ]
    calc d * t.prod ≤ (2 * halve d) * ((t.map halve).prod * 2 ^ t.length) :=
          Nat.mul_le_mul h1 h2
      _ = halve d * (t.map halve).prod * (2 ^ t.length * 2) := by ring

theorem halving_loop_not_too_small (fuel : Nat) :
    ∀ chunk : List Nat, (∀ d ∈ chunk, 1 ≤ d) → (∀ d ∈ chunk, d < 2 ^ 64 - 1) →
      chunk.prod < 2 ^ 64 → MAX_ELEMS < chunk.prod * 2 ^ chunk.length →
      MAX_ELEMS < (halving_loop fuel chunk).prod * 2 ^ chunk.length := by
  induction fuel with
  | zero =>
    intro chunk _ _ _ h
    simpa [halving_loop] using h
  | succ n ih =>
    intro chunk hpos hmax hprod hinv
    rw [halving_loop, chunk_prod_eq chunk (by rwa [clamped_prod_eq_prod chunk hpos]),
      clamped_prod_eq_prod chunk hpos]
    by_cases hgt : chunk.prod > MAX_ELEMS
    · rw [if_pos hgt]
      have hpos2 : ∀ d ∈ chunk.map halve, 1 ≤ d := by
        intro d hd
        obtain ⟨c, hc, rfl⟩ := List.mem_map.mp hd
        exact halve_pos c (hpos c hc) (hmax c hc)
      have hmax2 : ∀ d ∈ chunk.map halve, d < 2 ^ 64 - 1 := by
        intro d hd
        obtain ⟨c, hc, rfl⟩ := List.mem_map.mp hd
        exact halve_lt_max c (hmax c hc)
      have hle : (chunk.map halve).prod ≤ chunk.prod := by
        have := clamped_prod_map_halve_le chunk
        rwa [clamped_prod_eq_prod _ hpos2, clamped_prod_eq_prod _ hpos] at this
      have hstep := prod_le_prod_map_halve chunk hmax
      have := ih (chunk.map halve) hpos2 hmax2 (lt_of_le_of_lt hle hprod)
        (by rw [List.length_map]; omega)
      rwa [List.length_map] at this
    · rw [if_neg hgt]
      exact hinv

/-- C29: for a shape of rank `r` at least one with positive extents (an extent of a dataset
is below `H5S_UNLIMITED`) whose element count is above 1,048,576 and below `2^64`, the
element count of the chunk times `2^r` is above 1,048,576; so it is above
`1,048,576 / 2^r`. -/
theorem C29_chunk_not_too_small (dims : List Nat) (hrank : 1 ≤ dims.length)
    (hpos : ∀ d ∈ dims, 1 ≤ d) (hmax : ∀ d ∈ dims, d < H5S_UNLIMITED)
    (hbig : 1048576 < dims.prod) (hprod : dims.prod < 2 ^ 64) :
    1048576 < (compute_chunk dims).prod * 2 ^ dims.length ∧
    1048576 / 2 ^ dims.length < (compute_chunk dims).prod := by
  have hlen : ¬ dims.length = 0 := by omega
  have hp : 0 < 2 ^ dims.length := Nat.two_pow_pos _
  have h := halving_loop_not_too_small 64 dims hpos hmax hprod
    (by
      have : dims.prod ≤ dims.prod * 2 ^ dims.length := Nat.le_mul_of_pos_right _ hp
      simp only [MAX_ELEMS]
      omega)
  simp only [MAX_ELEMS] at h
  simp only [compute_chunk, if_neg hlen]
  refine ⟨by simpa using h, ?_⟩
  rw [Nat.div_lt_iff_lt_mul hp]
  simpa using h

/-- C29 at the shape `[1500, 1500]`, whose chunk is `[750, 750]`. -/
theorem C29_chunk_not_too_small_witness :
    1 ≤ [1500, 1500].length ∧ (∀ d ∈ [1500, 1500], 1 ≤ d) ∧
    (∀ d ∈ [1500, 1500], d < H5S_UNLIMITED) ∧ 1048576 < [1500, 1500].prod ∧
    [1500, 1500].prod < 2 ^ 64 ∧
    1048576 < (compute_chunk [1500, 1500]).prod * 2 ^ [1500, 1500].length ∧
    1048576 / 2 ^ [1500, 1500].length < (compute_chunk [1500, 1500]).prod :=
  ⟨by decide, by decide, by decide, by decide, by decide,
    C29_chunk_not_too_small [1500, 1500] (by decide) (by decide) (by decide) (by decide)
      (by decide)⟩

/-! ## The buffer of `read_dataset_raw` -/

theorem foldl_mul_mod (dims : List Nat) (acc : Nat) :
    dims.foldl (fun total d => (total * d) % 2 ^ 64) (acc % 2 ^ 64) =
      (acc * dims.prod) % 2 ^ 64 := by
  induction dims generalizing acc with
  | nil => simp
  | cons d t ih =>
    rw [List.foldl_cons, List.prod_cons, Nat.mod_mul_mod, ih (acc * d), Nat.mul_assoc]

theorem read_dataset_raw_size (info : DataSetInfo) (len : Nat) (dims_out : List Nat)
    (h : read_dataset_raw (some info) = some (len, dims_out)) :
    dims_out = info.dims ∧ len = (dims_out.prod * info.type_size) % 2 ^ 64 := by
  unfold read_dataset_raw at h
  simp only at h
  split at h
  · simp only [Option.some.injEq, Prod.mk.injEq] at h
    obtain ⟨h1, h2⟩ := h
    subst h2
    refine ⟨rfl, ?_⟩
    rw [← h1]
    have hf := foldl_mul_mod info.dims 1
    simp only [Nat.one_mul] at hf
    rw [show (1 : Nat) % 2 ^ 64 = 1 from by decide] at hf
    rw [hf, Nat.mod_mod, Nat.mod_mul_mod]
  · simp at h

/-- C21 as stated fails when the byte count wraps: for the shape `[2^32, 2^32]` and an
element size of `1` the function returns true with a buffer of length `0`, while the product
of the extents times the element size is `2^64`. -/
theorem C21_wrapped_size_counterexample :
    read_dataset_raw
        (some { dims := [4294967296, 4294967296], type_size := 1, H5Dread_ok := true }) =
      some (0, [4294967296, 4294967296]) ∧
    [4294967296, 4294967296].prod * 1 = 2 ^ 64 ∧ (0 : Nat) ≠ 2 ^ 64 := by
  refine ⟨by decide, by decide, by decide⟩

/-- C21, amended: whenever `read_dataset_raw` returns true, `dims_out` is the shape of the
dataset and the length of the buffer is `product(dims_out) * type_size` reduced modulo
`2^64`; it equals `product(dims_out) * type_size` (the product over a zero-rank shape being
`1`) whenever that number is below `2^64`. -/
theorem C21_buffer_length (info : DataSetInfo) (len : Nat) (dims_out : List Nat)
    (h : read_dataset_raw (some info) = some (len, dims_out)) :
    dims_out = info.dims ∧
    len = (dims_out.prod * info.type_size) % 2 ^ 64 ∧
    (dims_out.prod * info.type_size < 2 ^ 64 → len = dims_out.prod * info.type_size) ∧
    ([] : List Nat).prod = 1 := by
  obtain ⟨h1, h2⟩ := read_dataset_raw_size info len dims_out h
  refine ⟨h1, h2, ?_, rfl⟩
  intro hlt
  rw [h2, Nat.mod_eq_of_lt hlt]

/-- C21 (amended) for a dataset of shape `[4, 3]` with elements of 2 bytes. -/
theorem C21_buffer_length_witness :
    read_dataset_raw (some { dims := [4, 3], type_size := 2, H5Dread_ok := true }) =
      some (24, [4, 3]) ∧
    [4, 3] = ({ dims := [4, 3], type_size := 2, H5Dread_ok := true } : DataSetInfo).dims ∧
    24 = ([4, 3].prod * 2) % 2 ^ 64 ∧
    ([4, 3].prod * 2 < 2 ^ 64 → 24 = [4, 3].prod * 2) ∧
    ([] : List Nat).prod = 1 :=
  ⟨by decide,
    C21_buffer_length { dims := [4, 3], type_size := 2, H5Dread_ok := true } 24 [4, 3]
      (by decide)⟩

/-! ## The attributes of the destination -/

theorem copy_attribute_all_ok (env : AttrEnv) (dst : List Attr) (a : SrcAttr)
    (h : a.all_ok env = true) : copy_attribute env dst a = dst ++ [a.copied] := by
  simp only [SrcAttr.all_ok, Bool.and_eq_true] at h
  obtain ⟨⟨⟨⟨h1, h2⟩, h3⟩, h4⟩, h5⟩ := h
  simp [copy_attribute, SrcAttr.copied, h1, h2, h3, h4, h5]

theorem copy_attribute_not_created (env : AttrEnv) (dst : List Attr) (a : SrcAttr)
    (h : env.H5Acreate2_ok a.name = false) : copy_attribute env dst a = dst := by
  unfold copy_attribute
  split
  · rfl
  · split
    · rfl
    · simp [h]

theorem foldl_copy_attribute_all_ok (env : AttrEnv) (attrs : List SrcAttr)
    (h : ∀ a ∈ attrs, a.all_ok env = true) (dst : List Attr) :
    attrs.foldl (copy_attribute env) dst = dst ++ attrs.map SrcAttr.copied := by
  induction attrs generalizing dst with
  | nil => simp
  | cons a t ih =>
    rw [List.foldl_cons, copy_attribute_all_ok env dst a (h a (List.mem_cons_self _ _)),
      ih (fun b hb => h b (List.mem_cons_of_mem _ hb))]
    simp

/-- C22: when every attribute call succeeds, `copy_attributes` leaves a destination object
that had no attributes with exactly the attributes of the source, each with its name, type,
dataspace and value bytes; another enumeration order gives the same attributes up to order;
an attribute that `H5Acreate2` cannot create is skipped and the attributes before and after
it are copied as without it. -/
theorem C22_copy_attributes :
    (∀ (env : AttrEnv) (attrs : List SrcAttr), (∀ a ∈ attrs, a.all_ok env = true) →
      copy_attributes env (some attrs) [] = attrs.map SrcAttr.copied) ∧
    (∀ (env : AttrEnv) (attrs attrs2 : List SrcAttr), attrs.Perm attrs2 →
      (∀ a ∈ attrs, a.all_ok env = true) →
      (copy_attributes env (some attrs) []).Perm (copy_attributes env (some attrs2) [])) ∧
    (∀ (env : AttrEnv) (before after : List SrcAttr) (a : SrcAttr) (dst : List Attr),
      env.H5Acreate2_ok a.name = false →
      copy_attributes env (some (before ++ a :: after)) dst =
        copy_attributes env (some (before ++ after)) dst) := by
  refine ⟨?_, ?_, ?_⟩
  · intro env attrs h
    simp [copy_attributes, foldl_copy_attribute_all_ok env attrs h]
  · intro env attrs attrs2 hp h
    have h2 : ∀ a ∈ attrs2, a.all_ok env = true := fun a ha => h a (hp.mem_iff.mpr ha)
    simp only [copy_attributes, foldl_copy_attribute_all_ok env attrs h,
      foldl_copy_attribute_all_ok env attrs2 h2, List.nil_append]
    exact hp.map _
  · intro env before after a dst h
    simp only [copy_attributes, List.foldl_append, List.foldl_cons,
      copy_attribute_not_created env _ a h]

/-- C22 for a source object with the attributes `a` (32-bit integer 5) and `b` (`text`). -/
theorem C22_copy_attributes_witness :
    (∀ a ∈ [sample_attr_a, sample_attr_b], a.all_ok attr_env_ok = true) ∧
    copy_attributes attr_env_ok (some [sample_attr_a, sample_attr_b]) [] =
      [{ name := "a", atype := 1, aspace := [], value := some [5, 0, 0, 0] },
       { name := "b", atype := 2, aspace := [], value := some [116, 101, 120, 116] }] :=
  ⟨by decide,
    (C22_copy_attributes.1 attr_env_ok [sample_attr_a, sample_attr_b] (by decide)).trans
      (by decide)⟩

/-! ## The output file of a repeated run -/

/-- The row of `run_one` and the content of its output file afterwards, from any state of the
output directory: nothing of what a stale file held is left. -/
theorem run_one_fs_row (env : Env) (size_of : List Event → Nat) (src : List H5Obj)
    (spec : FilterSpec) (fs : FileSystem) :
    (SrcCode.run_one_fs env size_of src spec fs).map
        (fun r => (r.1, r.2 (spec.name ++ ".h5"))) =
      if env.H5File_create_ok (spec.name ++ ".h5") = false then
        some ({ filter_name := spec.name, file_mb := 0, ratio := 0 }, none)
      else if (SrcCode.recurse env spec "/" src).thrown = true then none
      else
        some ({ filter_name := spec.name,
                file_mb := size_of (SrcCode.recurse env spec "/" src).events / (1024 * 1024),
                ratio := 0 },
              some (SrcCode.recurse env spec "/" src).events) := by
  cases hc : env.H5File_create_ok (spec.name ++ ".h5")
  · cases hf : fs (spec.name ++ ".h5") <;>
      simp [SrcCode.run_one_fs, hc, hf, FileSystem.remove]
  · cases ht : (SrcCode.recurse env spec "/" src).thrown <;>
      simp [SrcCode.run_one_fs, hc, ht, FileSystem.H5File_trunc, FileSystem.add]

/-- C23: the outcome of `run_one`, the row that it returns (name, size, ratio) and the
content of its output file depend on the environment, the source and the spec only, not on
the state of the output directory before the run, because the stale file is removed and the
file is opened truncated before the walk adds to it: two runs from any two states give the
same row and the same file, and so does a second run on the state that the first run left.
With a stale file of one object and a walk that writes one object, the measured file holds
one object, not two. -/
theorem C23_run_one_ignores_stale_file :
    (∀ (env : Env) (size_of : List Event → Nat) (src : List H5Obj) (spec : FilterSpec)
      (fs fs2 : FileSystem),
      (SrcCode.run_one_fs env size_of src spec fs).map
          (fun r => (r.1, r.2 (spec.name ++ ".h5"))) =
        (SrcCode.run_one_fs env size_of src spec fs2).map
          (fun r => (r.1, r.2 (spec.name ++ ".h5")))) ∧
    (∀ (env : Env) (size_of : List Event → Nat) (src : List H5Obj) (spec : FilterSpec)
      (fs : FileSystem) (r : SrcCode.Result × FileSystem),
      SrcCode.run_one_fs env size_of src spec fs = some r →
      ∃ r2, SrcCode.run_one_fs env size_of src spec r.2 = some r2 ∧ r2.1 = r.1 ∧
        r2.2 (spec.name ++ ".h5") = r.2 (spec.name ++ ".h5")) ∧
    (SrcCode.run_one_fs env_available (fun content => 1048576 * content.length)
        [H5Obj.dataset "x" (some [4])] sample_baseline
        (fun n => if n = "baseline_none.h5" then some [Event.createGroup "/old"] else none)).map
        (fun r => (r.1, r.2 "baseline_none.h5")) =
      some ({ filter_name := "baseline_none", file_mb := 1, ratio := 0 },
        some [Event.write "/x" [4] { chunk := none, filters := [] }]) := by
  refine ⟨?_, ?_, ?_⟩
  · intro env size_of src spec fs fs2
    rw [run_one_fs_row env size_of src spec fs, run_one_fs_row env size_of src spec fs2]
  · intro env size_of src spec fs r hr
    have h1 := run_one_fs_row env size_of src spec fs
    have h2 := run_one_fs_row env size_of src spec r.2
    rw [hr] at h1
    rw [← h1] at h2
    cases hr2 : SrcCode.run_one_fs env size_of src spec r.2 with
    | none => simp [hr2] at h2
    | some r2 =>
      simp only [hr2, Option.map_some', Option.some.injEq, Prod.mk.injEq] at h2
      exact ⟨r2, rfl, h2.1, h2.2⟩
  · have h := run_one_fs_row env_available (fun content => 1048576 * content.length)
      [H5Obj.dataset "x" (some [4])] sample_baseline
      (fun n => if n = "baseline_none.h5" then some [Event.createGroup "/old"] else none)
    have hn : sample_baseline.name ++ ".h5" = "baseline_none.h5" := by decide
    rw [hn] at h
    rw [h]
    decide

end ATest4HDF5
